import Mathlib

/-!
Verification of the accustom CloudFormation custom-resource library
(`accustom/response.py`, `accustom/decorators.py`, `accustom/redaction.py`).

Python dictionaries are modelled as insertion-ordered association lists
(`PyDict`); Python values as the inductive `PyVal`.  Fallible code returns
`Except`/`Option`.  Mutation of shared dictionary objects is modelled either
by returning the post-call contents of the mutated object (for
`collapse_data`) or by explicit heap/address passing (for the redaction
engine, where aliasing between the input event and the sanitized copy is
the property of interest).
-/

set_option autoImplicit false
set_option maxRecDepth 100000

namespace Accustom

/-- Model of a Python (JSON-like) value as passed around by accustom:
strings, booleans, `None`, and (insertion-ordered) dictionaries. -/
inductive PyVal where
  | vstr (s : String)
  | vbool (b : Bool)
  | vnone
  | vdict (d : List (String × PyVal))
deriving Repr

/-- A Python dictionary: insertion-ordered association list. -/
abbrev PyDict := List (String × PyVal)

mutual

/-- Decidable equality for `PyVal` (nested inductive, so written by hand). -/
def pyValDecEq : (a b : PyVal) → Decidable (a = b)
  | .vstr a, .vstr b =>
      if h : a = b then .isTrue (by rw [h]) else .isFalse (by simp [h])
  | .vstr _, .vbool _ => .isFalse (by intro h; cases h)
  | .vstr _, .vnone => .isFalse (by intro h; cases h)
  | .vstr _, .vdict _ => .isFalse (by intro h; cases h)
  | .vbool _, .vstr _ => .isFalse (by intro h; cases h)
  | .vbool a, .vbool b =>
      if h : a = b then .isTrue (by rw [h]) else .isFalse (by simp [h])
  | .vbool _, .vnone => .isFalse (by intro h; cases h)
  | .vbool _, .vdict _ => .isFalse (by intro h; cases h)
  | .vnone, .vstr _ => .isFalse (by intro h; cases h)
  | .vnone, .vbool _ => .isFalse (by intro h; cases h)
  | .vnone, .vnone => .isTrue rfl
  | .vnone, .vdict _ => .isFalse (by intro h; cases h)
  | .vdict _, .vstr _ => .isFalse (by intro h; cases h)
  | .vdict _, .vbool _ => .isFalse (by intro h; cases h)
  | .vdict _, .vnone => .isFalse (by intro h; cases h)
  | .vdict a, .vdict b =>
      match pyDictDecEq a b with
      | .isTrue h => .isTrue (by rw [h])
      | .isFalse h => .isFalse (by simp [h])

/-- Decidable equality for lists of dict entries. -/
def pyDictDecEq : (a b : List (String × PyVal)) → Decidable (a = b)
  | [], [] => .isTrue rfl
  | [], _ :: _ => .isFalse (by intro h; cases h)
  | _ :: _, [] => .isFalse (by intro h; cases h)
  | (k, v) :: r, (k', v') :: r' =>
      if hk : k = k' then
        match pyValDecEq v v' with
        | .isTrue hv =>
            match pyDictDecEq r r' with
            | .isTrue hr => .isTrue (by rw [hk, hv, hr])
            | .isFalse hr => .isFalse (by simp [hr])
        | .isFalse hv => .isFalse (by simp [hv])
      else .isFalse (by simp [hk])

end

instance : DecidableEq PyVal := pyValDecEq

/-- `d[k]` lookup: first entry with the given key (Python dicts have unique
keys, so first = only). -/
def pyLookup : PyDict → String → Option PyVal
  | [], _ => none
  | (k', v) :: rest, k => if k' = k then some v else pyLookup rest k

/-- `k in d` membership test. -/
def pyMem (d : PyDict) (k : String) : Bool := (pyLookup d k).isSome

/-- `d[k] = v` assignment: replaces the value at the first occurrence of the
key in place, otherwise appends the new entry at the end (Python dict
insertion-order semantics). -/
def pySet : PyDict → String → PyVal → PyDict
  | [], k, v => [(k, v)]
  | (k', v') :: rest, k, v =>
      if k' = k then (k, v) :: rest else (k', v') :: pySet rest k v

/-- `del d[k]`: removes the first entry with the given key. -/
def pyDel : PyDict → String → PyDict
  | [], _ => []
  | (k', v') :: rest, k => if k' = k then rest else (k', v') :: pyDel rest k

/-- `list(d)` / iteration order of a dict: its keys in insertion order. -/
def pyKeys (d : PyDict) : List String := d.map Prod.fst

/-- Python truthiness of a modelled value (`bool(v)`): empty strings,
`False`, `None` and empty dicts are falsy. -/
def pyTruthy : PyVal → Bool
  | .vstr s => !s.isEmpty
  | .vbool b => b
  | .vnone => false
  | .vdict d => !d.isEmpty

/-- Whether a value is a Python `dict` (`isinstance(v, dict)`). -/
def isDictVal : PyVal → Bool
  | .vdict _ => true
  | _ => false

/-! ### URL scheme parsing (`urllib.parse.urlparse(url).scheme`) -/

/-- An ASCII letter, as required by `urlparse` for the first scheme
character. -/
def isSchemeStartChar (c : Char) : Bool :=
  (65 ≤ c.toNat && c.toNat ≤ 90) || (97 ≤ c.toNat && c.toNat ≤ 122)

/-- A character allowed in a URL scheme by `urlparse`
(letters, digits, `+`, `-`, `.`). -/
def isSchemeChar (c : Char) : Bool :=
  isSchemeStartChar c || c.isDigit || c == Char.ofNat 43 || c == Char.ofNat 45 ||
    c == Char.ofNat 46

/-- Model of CPython `urlparse(url).scheme`: the text before the first `:`
is the scheme if the colon is at position ≥ 1, the first character is an
ASCII letter and every character is a scheme character; the scheme is
lowercased.  Otherwise the scheme is the empty string. -/
def urlScheme (url : String) : String :=
  let cs := url.toList
  let pre := cs.takeWhile (fun c => c != Char.ofNat 58)
  if pre.length = cs.length then ""
  else
    match pre with
    | [] => ""
    | c0 :: _ =>
        if isSchemeStartChar c0 && pre.all isSchemeChar then
          String.mk (pre.map Char.toLower)
        else ""

/-! ### `is_valid_event` (response.py lines 41-80) -/

/-- The six required top-level fields of a request object. -/
def requiredEventKeys : List String :=
  ["RequestType", "ResponseURL", "StackId", "RequestId", "ResourceType",
   "LogicalResourceId"]

/-- `event["RequestType"] in [RequestType.CREATE, RequestType.DELETE,
RequestType.UPDATE]` (response.py line 65). -/
def requestTypeRecognized (rt : PyVal) : Bool :=
  rt == PyVal.vstr "Create" || rt == PyVal.vstr "Delete" || rt == PyVal.vstr "Update"

/-- `scheme == "" or scheme not in ("http", "https")` (response.py line
70). -/
def schemeNotOk (scheme : String) : Bool :=
  scheme = "" || !(scheme = "http" || scheme = "https")

/-- `event["RequestType"] in [RequestType.UPDATE, RequestType.DELETE]`
(response.py line 75). -/
def isUpdateOrDelete (rt : PyVal) : Bool :=
  rt == PyVal.vstr "Update" || rt == PyVal.vstr "Delete"

/-- Embedding of `accustom.response.is_valid_event`.  Returns `none` where
the Python code would raise a `TypeError` (calling `urlparse` on a
non-string `ResponseURL`); otherwise `some` of the boolean result. -/
def is_valid_event (event : PyDict) : Option Bool :=
  if !(requiredEventKeys.all (fun k => pyMem event k)) then
    some false
  else
    match pyLookup event "RequestType" with
    | none => some false
    | some rt =>
      if !(requestTypeRecognized rt) then
        some false
      else
        match pyLookup event "ResponseURL" with
        | some (PyVal.vstr url) =>
            if schemeNotOk (urlScheme url) then
              some false
            else if isUpdateOrDelete rt && !(pyMem event "PhysicalResourceId") then
              some false
            else
              some true
        | some _ => none
        | none => some false

/-! ### `collapse_data` (response.py lines 83-112)

The Python function mutates its dictionary argument in place and returns
that same dictionary; the embedding is the induced transformer on the
dictionary's contents.  The outer loop iterates over a snapshot of the
keys (`for item in list(response_data)`) while membership checks consult
the evolving dictionary; recursion into nested dictionaries is modelled
with a fuel argument bounding the nesting depth. -/

mutual

/-- Maximum dict-nesting depth of a value. -/
def pyValDepth : PyVal → Nat
  | .vdict d => pyDictDepth d + 1
  | _ => 0

/-- Maximum dict-nesting depth among a dictionary's values. -/
def pyDictDepth : List (String × PyVal) → Nat
  | [] => 0
  | (_, v) :: rest => max (pyValDepth v) (pyDictDepth rest)

end

/-- One iteration body of `collapse_data`'s outer loop, for a key `k`
whose value is a dict that has already been recursively collapsed to
`sub`: store the collapsed sub-dict (`response_data[item] = ...`), then
for each of its keys add the dotted entry `k ++ "." ++ ck` unless that
key is already present, finally delete `k`. -/
def collapseEntry (k : String) (sub : PyDict) (d : PyDict) : PyDict :=
  pyDel
    ((pyKeys sub).foldl
      (fun acc ck =>
        let nk := k ++ "." ++ ck
        if pyMem acc nk then acc
        else acc ++ [(nk, (pyLookup sub ck).getD PyVal.vnone)])
      (pySet d k (PyVal.vdict sub)))
    k

/-- The outer loop of `collapse_data` over the key snapshot `ks`, with the
recursive collapse of nested dictionaries supplied as `recurse`. -/
def collapseGo (recurse : PyDict → PyDict) : List String → PyDict → PyDict
  | [], d => d
  | k :: ks, d =>
      match pyLookup d k with
      | some (PyVal.vdict sub) => collapseGo recurse ks (collapseEntry k (recurse sub) d)
      | _ => collapseGo recurse ks d

/-- Fuelled recursion for `collapse_data`; the fuel bounds the dict
nesting depth, which is what Python's call stack recursion's depth is. -/
def collapseF : Nat → PyDict → PyDict
  | 0, d => d
  | fuel + 1, d => collapseGo (collapseF fuel) (pyKeys d) d

/-- Embedding of `accustom.response.collapse_data` (as the transformer on
the contents of the argument dictionary, which the Python function mutates
in place and returns). -/
def collapse_data (d : PyDict) : PyDict := collapseF (pyDictDepth d + 1) d

/-! ### `json.dumps` and `sys.getsizeof` models -/

/-- Lowercase hexadecimal digit. -/
def hexDigit (n : Nat) : Char :=
  if n < 10 then Char.ofNat (48 + n) else Char.ofNat (87 + n)

/-- Four lowercase hex digits, as produced inside a JSON `\uXXXX` escape. -/
def hex4 (n : Nat) : String :=
  String.mk [hexDigit (n / 4096 % 16), hexDigit (n / 256 % 16),
             hexDigit (n / 16 % 16), hexDigit (n % 16)]

/-- JSON escape of one character, following CPython `json.dumps` defaults
(`ensure_ascii=True`): named escapes for the usual control characters,
`\uXXXX` (with a surrogate pair above U+FFFF) for everything outside
printable ASCII. -/
def jsonEscapeChar (c : Char) : String :=
  if c == Char.ofNat 34 then "\\\""
  else if c == Char.ofNat 92 then "\\\\"
  else if c == Char.ofNat 10 then "\\n"
  else if c == Char.ofNat 13 then "\\r"
  else if c == Char.ofNat 9 then "\\t"
  else if c == Char.ofNat 8 then "\\b"
  else if c == Char.ofNat 12 then "\\f"
  else if c.toNat < 32 || c.toNat > 126 then
    if c.toNat ≤ 65535 then "\\u" ++ hex4 c.toNat
    else
      let n := c.toNat - 65536
      "\\u" ++ hex4 (55296 + n / 1024) ++ "\\u" ++ hex4 (56320 + n % 1024)
  else String.singleton c

/-- JSON string literal for `s` (quotes plus escaped content). -/
def jsonStringLit (s : String) : String :=
  "\"" ++ s.toList.foldl (fun acc c => acc ++ jsonEscapeChar c) "" ++ "\""

mutual

/-- `json.dumps` of a value, with CPython's default separators
(`", "` between entries, `": "` after a key). -/
def jsonVal : PyVal → String
  | .vstr s => jsonStringLit s
  | .vbool true => "true"
  | .vbool false => "false"
  | .vnone => "null"
  | .vdict d => "\x7b" ++ jsonEntries d ++ "\x7d"

/-- `json.dumps` of the entries of a dictionary, comma-separated. -/
def jsonEntries : List (String × PyVal) → String
  | [] => ""
  | [(k, v)] => jsonStringLit k ++ ": " ++ jsonVal v
  | (k, v) :: rest => jsonStringLit k ++ ": " ++ jsonVal v ++ ", " ++ jsonEntries rest

end

/-- `sys.getsizeof` of a CPython compact-ASCII `str`: 49 bytes of object
header plus one byte per character.  `cfnresponse` only measures the
output of `json.dumps(...)`, which with `ensure_ascii=True` is always
ASCII, so this model is exact for every measured string. -/
def pyStrSizeof (s : String) : Nat := 49 + s.length

mutual

/-- `str()` / f-string rendering of a value (only strings, booleans and
`None` are rendered exactly; dictionary repr is modelled for values whose
strings contain no quotes). -/
def pyStr : PyVal → String
  | .vstr s => s
  | .vbool true => "True"
  | .vbool false => "False"
  | .vnone => "None"
  | .vdict d => "\x7b" ++ pyReprEntries d ++ "\x7d"

/-- `repr()` entries of a dictionary, used by `pyStr` on nested dicts. -/
def pyReprEntries : List (String × PyVal) → String
  | [] => ""
  | [(k, v)] => "\x27" ++ k ++ "\x27: " ++ pyStr v
  | (k, v) :: rest => "\x27" ++ k ++ "\x27: " ++ pyStr v ++ ", " ++ pyReprEntries rest

end

/-- f-string rendering of an optional string (`None` prints as "None"). -/
def optFormat : Option String → String
  | some s => s
  | none => "None"

/-! ### `cfnresponse` (response.py lines 115-245) -/

/-- The Lambda context object, as consumed by `cfnresponse` (only its log
stream name is read there). -/
structure LambdaContext where
  log_stream_name : String
deriving Repr, DecidableEq

/-- The exceptions `cfnresponse` can raise before attempting the network
PUT, plus `typeError`/`attributeError` for the places where the Python
code would raise a built-in error (urlparse on a non-string URL; reading
`context.log_stream_name` when `context` is `None`). -/
inductive CfnErr where
  | typeError
  | notValidRequestObject
  | noPhysicalResourceId
  | invalidResponseStatus
  | dataIsNotDict
  | attributeError
  | responseTooLong (size : Nat)
deriving Repr, DecidableEq

/-- `CUSTOM_RESOURCE_SIZE_LIMIT` (response.py line 30). -/
def CUSTOM_RESOURCE_SIZE_LIMIT : Nat := 4096

/-- Whether `responseData` is present and not a dict (response.py line
168). -/
def dataNotDict : Option PyVal → Bool
  | some (PyVal.vdict _) => false
  | some _ => true
  | none => false

/-- `responseData is not None and "ExceptionThrown" in responseData`. -/
def dataHasExceptionThrown : Option PyVal → Bool
  | some (PyVal.vdict d) => pyMem d "ExceptionThrown"
  | _ => false

/-- The f-string rendering of `responseData["ExceptionThrown"]`. -/
def exceptionThrownStr : Option PyVal → String
  | some (PyVal.vdict d) => pyStr ((pyLookup d "ExceptionThrown").getD PyVal.vnone)
  | _ => ""

/-- Reason derivation of `cfnresponse` (response.py lines 171-181). -/
def computeReason (status : String) (reason : Option String) (rdata : Option PyVal)
    (ctx : Option LambdaContext) : Option String :=
  if status = "FAILED" then
    let r1 : Option String :=
      if reason.isSome && dataHasExceptionThrown rdata then
        some ("There was an exception thrown in execution of \x27" ++
              exceptionThrownStr rdata ++ "\x27")
      else if reason.isNone then some "Unknown failure occurred"
      else reason
    match ctx with
    | some c =>
        some (optFormat r1 ++ " -- See the details in CloudWatch Log Stream: " ++
              c.log_stream_name)
    | none => r1
  else
    match ctx, reason with
    | some c, none =>
        some ("See the details in CloudWatch Log Stream: " ++ c.log_stream_name)
    | _, _ => reason

/-- The physical-resource-id candidate after line 185: the explicit
argument if not `None`, else the event's `PhysicalResourceId` entry if
present. -/
def pidSelect (physicalResourceId : Option String) (event : PyDict) : Option PyVal :=
  match physicalResourceId with
  | some s => some (PyVal.vstr s)
  | none => pyLookup event "PhysicalResourceId"

/-- `physicalResourceId or context.log_stream_name` (line 189): a falsy
candidate (or no candidate) falls back to the context's log stream name;
`none` models the `AttributeError` when `context` is also `None`. -/
def pidResolve (pid : Option PyVal) (ctx : Option LambdaContext) : Option PyVal :=
  match pid with
  | some v =>
      if pyTruthy v then some v
      else ctx.map (fun c => PyVal.vstr c.log_stream_name)
  | none => ctx.map (fun c => PyVal.vstr c.log_stream_name)

/-- The contents of the caller's `responseData` dictionary after line 193:
`collapse_data` mutates it in place (and `responseBody["Data"]` aliases
it); absent or non-dict data is untouched. -/
def collapsedData : Option PyVal → Option PyDict
  | some (PyVal.vdict dd) => some (collapse_data dd)
  | _ => none

/-- Assembly of the `responseBody` dictionary (response.py lines 187-194),
in insertion order. -/
def mkResponseBody (status : String) (reason : Option String) (pidv : PyVal)
    (stackId reqId logId : PyVal) (data : Option PyDict) (squash : Bool) : PyDict :=
  let rb : PyDict := [("Status", PyVal.vstr status)]
  let rb := match reason with
    | some r => rb ++ [("Reason", PyVal.vstr r)]
    | none => rb
  let rb := rb ++ [("PhysicalResourceId", pidv), ("StackId", stackId),
                   ("RequestId", reqId), ("LogicalResourceId", logId)]
  let rb := match data with
    | some dd => rb ++ [("Data", PyVal.vdict dd)]
    | none => rb
  if squash then rb ++ [("NoEcho", PyVal.vstr "true")] else rb

/-- The validation, reason/physical-id derivation and body-construction
phase of `cfnresponse` (response.py lines 152-194), ending just before
serialization.  On success it returns the `responseBody` dictionary
together with the post-call contents of the caller's `responseData`
object (which line 193 collapses in place and aliases as
`responseBody["Data"]`). -/
def cfnbuild (event : PyDict) (responseStatus : String) (responseReason : Option String)
    (responseData : Option PyVal) (physicalResourceId : Option String)
    (context : Option LambdaContext) (_squashPrintResponse : Bool) :
    Except CfnErr (PyDict × Option PyDict) :=
  match is_valid_event event with
  | none => .error .typeError
  | some false => .error .notValidRequestObject
  | some true =>
    if physicalResourceId.isNone && context.isNone && !(pyMem event "PhysicalResourceId") then
      .error .noPhysicalResourceId
    else if responseStatus ≠ "FAILED" ∧ responseStatus ≠ "SUCCESS" then
      .error .invalidResponseStatus
    else if dataNotDict responseData then
      .error .dataIsNotDict
    else
      let reason := computeReason responseStatus responseReason responseData context
      match pidResolve (pidSelect physicalResourceId event) context with
      | none => .error .attributeError
      | some pidv =>
        let collapsed : Option PyDict := collapsedData responseData
        .ok (mkResponseBody responseStatus reason pidv
              ((pyLookup event "StackId").getD PyVal.vnone)
              ((pyLookup event "RequestId").getD PyVal.vnone)
              ((pyLookup event "LogicalResourceId").getD PyVal.vnone)
              collapsed _squashPrintResponse,
            collapsed)

/-- The pending network PUT of `cfnresponse`, produced just before
`requests.put` (response.py line 222): the callback URL, the serialized
body that would be PUT unmodified, its measured size (also used for the
`content-length` header), the returned `responseBody` dictionary, and the
post-call contents of the caller's `responseData` dictionary. -/
structure CfnPut where
  url : String
  body : String
  size : Nat
  responseBody : PyDict
  finalResponseData : Option PyDict
deriving Repr, DecidableEq

/-- Embedding of `accustom.response.cfnresponse` up to the point of the
network PUT: `.error` results are exceptions raised before any PUT is
attempted; an `.ok` result means the size check passed and the PUT of
exactly `body` is issued. -/
def cfnresponse (event : PyDict) (responseStatus : String) (responseReason : Option String)
    (responseData : Option PyVal) (physicalResourceId : Option String)
    (context : Option LambdaContext) (squashPrintResponse : Bool) :
    Except CfnErr CfnPut :=
  match cfnbuild event responseStatus responseReason responseData physicalResourceId
      context squashPrintResponse with
  | .error e => .error e
  | .ok (rb, fd) =>
    let body := jsonVal (PyVal.vdict rb)
    let size := pyStrSizeof body
    if size ≥ CUSTOM_RESOURCE_SIZE_LIMIT then
      .error (.responseTooLong size)
    else
      .ok { url := (match pyLookup event "ResponseURL" with
                    | some (PyVal.vstr u) => u
                    | _ => ""),
            body := body, size := size, responseBody := rb, finalResponseData := fd }

/-! ### `decorator` / `handler_wrapper` stages (decorators.py lines 218-272) -/

/-- The fields of `accustom.response.ResponseObject`. Default field values
mirror the Python constructor defaults. -/
structure ResponseObject where
  data : Option PyVal := none
  physicalResourceId : Option String := none
  reason : Option String := none
  responseStatus : String := "SUCCESS"
  squashPrintResponse : Bool := false
deriving Repr, DecidableEq

/-- The value returned by the user's decorated function, as discriminated
by `handler_wrapper`: a `ResponseObject`, a boolean, a dict, a string,
`None`, or a value of any other class (carrying the f-string rendering of
its class for the failure reason). -/
inductive FuncResult where
  | respObj (r : ResponseObject)
  | rbool (b : Bool)
  | rdict (d : PyDict)
  | rstr (s : String)
  | rnone
  | other (cls : String)
deriving Repr, DecidableEq

/-- f-string rendering of `result.__class__` for the modelled result
kinds. -/
def pyClassOf : FuncResult → String
  | .respObj _ => "<class \x27accustom.response.ResponseObject\x27>"
  | .rbool _ => "<class \x27bool\x27>"
  | .rdict _ => "<class \x27dict\x27>"
  | .rstr _ => "<class \x27str\x27>"
  | .rnone => "<class \x27NoneType\x27>"
  | .other cls => cls

/-- The result-normalization stage of `handler_wrapper` (decorators.py
lines 218-252): coerces a non-`ResponseObject` result into a
`ResponseObject`, or into a FAILED one when no Lambda context is present
or `enforceUseOfClass` is set. -/
def normalize_result (funcName : String) (context : Option LambdaContext)
    (enforceUseOfClass : Bool) (result : FuncResult) : ResponseObject :=
  match result with
  | .respObj r => r
  | r =>
    if context.isNone then
      { reason := some ("Response Object of type " ++ pyClassOf r ++
          " was not a ResponseObject and there is no Lambda Context"),
        responseStatus := "FAILED" }
    else if enforceUseOfClass then
      { reason := some ("Response Object of type " ++ pyClassOf r ++
          " was not a ResponseObject instance and enforceUseOfClass set to true"),
        responseStatus := "FAILED" }
    else
      match r with
      | .rbool false =>
          { reason := some ("Function " ++ funcName ++ " returned False."),
            responseStatus := "FAILED" }
      | .rdict d => { data := some (PyVal.vdict d) }
      | .rstr s => { data := some (PyVal.vdict [("Return", PyVal.vstr s)]) }
      | .rnone => {}
      | .rbool true => {}
      | r' =>
          { reason := some ("Return value from Function " ++ funcName ++
              " is of unsupported type " ++ pyClassOf r'),
            responseStatus := "FAILED" }

/-- The wire-exact reason string of the delete-failure-hiding block
(decorators.py lines 268-269; the two concatenated string literals join
"cleaned" and "up" without a space, exactly as in the source). -/
def hideDeleteReason : String :=
  "There may be resources created by this Custom Resource that have not been cleaned" ++
    "up despite the fact this resource is in DELETE_COMPLETE"

/-- The delete-failure-hiding stage of `handler_wrapper` (decorators.py
lines 254-272). -/
def delete_guard (event : PyDict) (hideResourceDeleteFailure : Bool)
    (result : ResponseObject) : ResponseObject :=
  if pyLookup event "RequestType" = some (PyVal.vstr "Delete") ∧
      result.responseStatus = "FAILED" ∧ hideResourceDeleteFailure then
    { reason := some hideDeleteReason,
      physicalResourceId := result.physicalResourceId,
      responseStatus := "SUCCESS" }
  else result

/-! ### Redaction engine (redaction.py lines 129-172)

`RedactionConfig._redact` mutates only a deep copy of the event, so the
embedding makes object identity explicit: the mutable
`ResourceProperties` / `OldResourceProperties` dictionaries live in a
heap of property dictionaries addressed by allocation index, and the
event object holds either scalar values or references into that heap.
`copy.deepcopy` allocates fresh addresses; every dictionary write names
the address it mutates.  Python's `re.search` / `re.match` primitives are
external collaborators and are passed in as boolean-valued matching
functions. -/

/-- Heap address of a property dictionary. -/
abbrev Addr := Nat

/-- The heap of property dictionaries; an address is an index, allocation
appends. -/
abbrev PropsHeap := List PyDict

/-- Dereference an address. -/
def heapGet (h : PropsHeap) (a : Addr) : PyDict := h[a]?.getD []

/-- Overwrite the dictionary at an address. -/
def heapWrite (h : PropsHeap) (a : Addr) (d : PyDict) : PropsHeap := h.set a d

/-- `obj[k] = v` on the dictionary object at address `a`. -/
def propWrite (h : PropsHeap) (a : Addr) (k : String) (v : PyVal) : PropsHeap :=
  heapWrite h a (pySet (heapGet h a) k v)

/-- A top-level field of an event object: a scalar value, or a reference
to a (mutable) property dictionary in the heap. -/
inductive FieldVal where
  | scalar (v : PyVal)
  | ref (a : Addr)
deriving Repr, DecidableEq

/-- The top-level event dictionary, with its properties sub-dictionaries
held by reference. -/
abbrev EventObj := List (String × FieldVal)

/-- Lookup of a top-level event field. -/
def evLookup : EventObj → String → Option FieldVal
  | [], _ => none
  | (k', f) :: rest, k => if k' = k then some f else evLookup rest k

/-- Assignment to a top-level event field (replace in place or append). -/
def evSet : EventObj → String → FieldVal → EventObj
  | [], k, f => [(k, f)]
  | (k', f') :: rest, k, f =>
      if k' = k then (k, f) :: rest else (k', f') :: evSet rest k f

/-- `del` of a top-level event field. -/
def evDel : EventObj → String → EventObj
  | [], _ => []
  | (k', f') :: rest, k => if k' = k then rest else (k', f') :: evDel rest k

/-- The contents of an event object as a plain dictionary, dereferencing
property references through the heap. -/
def eventView (h : PropsHeap) (e : EventObj) : PyDict :=
  e.map (fun kf => (kf.1, match kf.2 with
    | FieldVal.scalar v => v
    | FieldVal.ref a => PyVal.vdict (heapGet h a)))

/-- One step of `copy.deepcopy(event)`: scalars are copied by value; a
referenced property dictionary is copied into a freshly allocated heap
address. -/
def dcStep (acc : PropsHeap × EventObj) (kf : String × FieldVal) : PropsHeap × EventObj :=
  match kf.2 with
  | FieldVal.scalar v => (acc.1, acc.2 ++ [(kf.1, FieldVal.scalar v)])
  | FieldVal.ref a =>
      (acc.1 ++ [heapGet acc.1 a], acc.2 ++ [(kf.1, FieldVal.ref acc.1.length)])

/-- `copy.deepcopy(event)`: copies each field in order, allocating a fresh
heap address for every referenced property dictionary. -/
def deepcopyEvent (h : PropsHeap) (e : EventObj) : PropsHeap × EventObj :=
  e.foldl dcStep (h, [])

/-- The `REDACTED_STRING` marker (redaction.py line 23). -/
def REDACTED_STRING : String := "[REDACTED]"

/-- `RedactionConfig` after construction: the normalized mode (`"block"`
or `"allow"`), the URL-redaction flag, and the rule sets as an ordered
`resourceRegex -> property-regex list` mapping. -/
structure RedactionConfigM where
  redactMode : String
  redactResponseURL : Bool
  redactProperties : List (String × List String)
deriving Repr, DecidableEq

/-- Exceptions `_redact` can raise (before any mutation happens). -/
inductive RedactErr where
  | typeError
  | notValidRequestObject
deriving Repr, DecidableEq

/-- `if "k" in ec: ec["k"] = {}` for the ALLOWLIST pre-pass (redaction.py
lines 142-143): rebinds the field of the copy to a freshly allocated
empty dictionary. -/
def blankField (st : PropsHeap × EventObj) (k : String) : PropsHeap × EventObj :=
  if (evLookup st.2 k).isSome then
    (st.1 ++ [[]], evSet st.2 k (FieldVal.ref st.1.length))
  else st

/-- The heap address a present properties field of an object refers to. -/
def fieldAddr (e : EventObj) (k : String) : Option Addr :=
  match evLookup e k with
  | some (FieldVal.ref a) => some a
  | _ => none

/-- The event's `ResourceType` string (redaction.py line 145; a scalar
top-level field). -/
def getRTypeEv (e : EventObj) : String :=
  match evLookup e "ResourceType" with
  | some (FieldVal.scalar (PyVal.vstr s)) => s
  | _ => ""

/-- BLOCKLIST pass for one property regex over the copy's dictionary at
address `a` (redaction.py lines 150-155): every key of that dictionary
matching the regex is overwritten with the redaction marker. -/
def blockPass (rmatch : String → String → Bool) (p : String) (a : Addr)
    (h : PropsHeap) : PropsHeap :=
  (pyKeys (heapGet h a)).foldl
    (fun h' k => if rmatch p k then propWrite h' a k (PyVal.vstr REDACTED_STRING) else h')
    h

/-- ALLOWLIST pass for one property regex (redaction.py lines 157-162):
every key of the original's dictionary (at address `aOrig`) matching the
regex has its original value copied into the copy's dictionary (at
address `a`). -/
def allowPass (rmatch : String → String → Bool) (p : String) (aOrig a : Addr)
    (h : PropsHeap) : PropsHeap :=
  (pyKeys (heapGet h aOrig)).foldl
    (fun h' k =>
      if rmatch p k then
        propWrite h' a k ((pyLookup (heapGet h' aOrig) k).getD PyVal.vnone)
      else h')
    h

/-- Apply a pass to the copy's dictionary when that properties field is
present (`if "..." in ec:`). -/
def optPass1 (pass : Addr → PropsHeap → PropsHeap) : Option Addr → PropsHeap → PropsHeap
  | some a, h => pass a h
  | none, h => h

/-- Apply a pass reading the original's dictionary and writing the copy's
when both fields are present. -/
def optPass (pass : Addr → Addr → PropsHeap → PropsHeap) :
    Option Addr → Option Addr → PropsHeap → PropsHeap
  | some a, some ao, h => pass ao a h
  | _, _, h => h

/-- One property regex applied to `ResourceProperties` and
`OldResourceProperties` (redaction.py lines 149-162), according to the
mode. -/
def applyRuleProp (rmatch : String → String → Bool) (mode : String)
    (aRP aORP aRPo aORPo : Option Addr) (h : PropsHeap) (p : String) : PropsHeap :=
  if mode = "block" then
    optPass1 (blockPass rmatch p) aORP (optPass1 (blockPass rmatch p) aRP h)
  else if mode = "allow" then
    optPass (allowPass rmatch p) aORP aORPo (optPass (allowPass rmatch p) aRP aRPo h)
  else h

/-- The rule-set loop of `_redact` (redaction.py lines 144-162): each rule
set whose resource regex matches the event's resource type applies its
property regexes in order. -/
def applyRules (research rmatch : String → String → Bool) (cfg : RedactionConfigM)
    (rtype : String) (aRP aORP aRPo aORPo : Option Addr) (h : PropsHeap) : PropsHeap :=
  cfg.redactProperties.foldl
    (fun hAcc rule =>
      if research rule.1 rtype then
        rule.2.foldl (applyRuleProp rmatch cfg.redactMode aRP aORP aRPo aORPo) hAcc
      else hAcc)
    h

/-- The ALLOWLIST default-deny pass for one properties pair (redaction.py
lines 163-169): every key present in the original's dictionary but absent
from the copy's dictionary is set to the redaction marker in the copy. -/
def allowFinalPass (aOrig a : Addr) (h : PropsHeap) : PropsHeap :=
  (pyKeys (heapGet h aOrig)).foldl
    (fun h' k =>
      if pyMem (heapGet h' a) k then h'
      else propWrite h' a k (PyVal.vstr REDACTED_STRING))
    h

/-- The ALLOWLIST pre-pass (redaction.py lines 141-143): in `"allow"`
mode both properties fields of the copy are rebound to fresh empty
dictionaries. -/
def allowBlank (cfg : RedactionConfigM) (st : PropsHeap × EventObj) :
    PropsHeap × EventObj :=
  if cfg.redactMode = "allow" then
    blankField (blankField st "ResourceProperties") "OldResourceProperties"
  else st

/-- The ALLOWLIST default-deny final pass (redaction.py lines 163-169),
applied to `ResourceProperties` then `OldResourceProperties`. -/
def allowFinal (cfg : RedactionConfigM) (aRP aORP aRPo aORPo : Option Addr)
    (h : PropsHeap) : PropsHeap :=
  if cfg.redactMode = "allow" then
    optPass allowFinalPass aORP aORPo (optPass allowFinalPass aRP aRPo h)
  else h

/-- The mutating core of `_redact` (redaction.py lines 140-172), executed
once the event has passed validation: deep-copy, ALLOWLIST blanking, the
rule-set loop, the ALLOWLIST default-deny pass, and URL redaction. -/
def redactCore (research rmatch : String → String → Bool) (cfg : RedactionConfigM)
    (h : PropsHeap) (event : EventObj) : PropsHeap × EventObj :=
  let st := allowBlank cfg (deepcopyEvent h event)
  let ec := st.2
  let aRP := fieldAddr ec "ResourceProperties"
  let aORP := fieldAddr ec "OldResourceProperties"
  let aRPo := fieldAddr event "ResourceProperties"
  let aORPo := fieldAddr event "OldResourceProperties"
  let h3 := applyRules research rmatch cfg (getRTypeEv event) aRP aORP aRPo aORPo st.1
  let h4 := allowFinal cfg aRP aORP aRPo aORPo h3
  (h4, if cfg.redactResponseURL then evDel ec "ResponseURL" else ec)

/-- Embedding of `accustom.redaction.RedactionConfig._redact`: validate
the event, then run the mutating core on a deep copy. -/
def redactEvent (research rmatch : String → String → Bool) (cfg : RedactionConfigM)
    (h : PropsHeap) (event : EventObj) : Except RedactErr (PropsHeap × EventObj) :=
  match is_valid_event (eventView h event) with
  | none => .error .typeError
  | some false => .error .notValidRequestObject
  | some true => .ok (redactCore research rmatch cfg h event)

/-- Bound check on one event field: non-reference fields pass, a
reference must point strictly below `n`. -/
def fieldRefLT (f : FieldVal) (n : Nat) : Bool :=
  match f with
  | .scalar _ => true
  | .ref a => a < n

/-- Lower bound check on one event field's reference. -/
def fieldRefGE (f : FieldVal) (n : Nat) : Bool :=
  match f with
  | .scalar _ => true
  | .ref a => n ≤ a

/-- Every property reference of the event object points below `n`
(well-formedness of an event against a heap of size `n`). -/
def EvRefsLT (e : EventObj) (n : Nat) : Prop := ∀ kf ∈ e, fieldRefLT kf.2 n = true

/-- Every property reference of the event object points at or above `n`
(freshness of the copy's references relative to the original heap). -/
def EvRefsGE (e : EventObj) (n : Nat) : Prop := ∀ kf ∈ e, fieldRefGE kf.2 n = true

/-- Heap agreement below address `n`. -/
def PrefixEq (n : Nat) (h h' : PropsHeap) : Prop :=
  ∀ b, b < n → h'[b]? = h[b]?

/-! ## Concrete fixtures used by witnesses and counterexamples -/

/-- Upper-bound predicate on an optional address. -/
def AddrGE (oa : Option Addr) (n : Nat) : Prop := ∀ a, oa = some a → n ≤ a

/-- A minimal valid CloudFormation request object. -/
def sampleEvent : PyDict :=
  [("RequestType", PyVal.vstr "Create"),
   ("ResponseURL", PyVal.vstr "https://example.com/cb"),
   ("StackId", PyVal.vstr "stack-1"),
   ("RequestId", PyVal.vstr "req-1"),
   ("ResourceType", PyVal.vstr "Custom::Test"),
   ("LogicalResourceId", PyVal.vstr "Logical1")]

/-- The response body built for `sampleEvent` with status SUCCESS, no
reason, no data, explicit physical id `pid-1`, no context. -/
def sampleBody : PyDict :=
  [("Status", PyVal.vstr "SUCCESS"),
   ("PhysicalResourceId", PyVal.vstr "pid-1"),
   ("StackId", PyVal.vstr "stack-1"),
   ("RequestId", PyVal.vstr "req-1"),
   ("LogicalResourceId", PyVal.vstr "Logical1")]

instance (e : EventObj) (n : Nat) : Decidable (EvRefsLT e n) :=
  inferInstanceAs (Decidable (∀ kf ∈ e, fieldRefLT kf.2 n = true))

/-- A one-object heap holding a properties dictionary. -/
def redactHeap0 : PropsHeap := [[("a", PyVal.vstr "b"), ("secret", PyVal.vstr "s3cr3t")]]

/-- A valid request event whose `ResourceProperties` refers to the heap
object at address 0. -/
def redactEvent0 : EventObj :=
  [("RequestType", FieldVal.scalar (PyVal.vstr "Create")),
   ("ResponseURL", FieldVal.scalar (PyVal.vstr "https://example.com/cb")),
   ("StackId", FieldVal.scalar (PyVal.vstr "stack-1")),
   ("RequestId", FieldVal.scalar (PyVal.vstr "req-1")),
   ("ResourceType", FieldVal.scalar (PyVal.vstr "Custom::Test")),
   ("LogicalResourceId", FieldVal.scalar (PyVal.vstr "Logical1")),
   ("ResourceProperties", FieldVal.ref 0)]

/-- A matcher under which no pattern matches anything (a model of
`re.search`/`re.match` for patterns that never fire). -/
def neverMatch : String → String → Bool := fun _ _ => false

/-- A matcher modelling anchored exact-name regexes. -/
def matchAnchored : String → String → Bool := fun pat s => pat = "^" ++ s ++ "$"

/-- BLOCKLIST config with one matching rule set. -/
def blockCfg : RedactionConfigM :=
  { redactMode := "block", redactResponseURL := false,
    redactProperties := [("^Custom::Test$", ["^secret$"])] }

/-- BLOCKLIST config whose only rule set matches no resource type. -/
def blockCfgUnmatched : RedactionConfigM :=
  { redactMode := "block", redactResponseURL := false,
    redactProperties := [("^Never$", ["^x$"])] }

/-- ALLOWLIST config whose only rule set matches no resource type. -/
def allowCfg : RedactionConfigM :=
  { redactMode := "allow", redactResponseURL := false,
    redactProperties := [("^Never$", ["^x$"])] }

/-- The sanitized view produced by the ALLOWLIST counterexample: every
property has been replaced by the redaction marker. -/
def allowRedactedView : PyDict :=
  [("RequestType", PyVal.vstr "Create"),
   ("ResponseURL", PyVal.vstr "https://example.com/cb"),
   ("StackId", PyVal.vstr "stack-1"),
   ("RequestId", PyVal.vstr "req-1"),
   ("ResourceType", PyVal.vstr "Custom::Test"),
   ("LogicalResourceId", PyVal.vstr "Logical1"),
   ("ResourceProperties",
    PyVal.vdict [("a", PyVal.vstr "[REDACTED]"), ("secret", PyVal.vstr "[REDACTED]")])]

/-! ## Lemmas about dictionary operations -/

theorem pyLookup_append_of_isSome {d : PyDict} {k : String} (e : PyDict)
    (h : (pyLookup d k).isSome) : pyLookup (d ++ e) k = pyLookup d k := by
  induction d with
  | nil => simp [pyLookup, Option.isSome] at h
  | cons kv rest ih =>
      obtain ⟨k', v⟩ := kv
      by_cases hk : k' = k
      · simp [pyLookup, hk]
      · simp only [pyLookup, if_neg hk] at h ⊢
        simpa [List.cons_append, pyLookup, hk] using ih h

theorem pyLookup_pySet_ne {d : PyDict} {k k' : String} (v : PyVal) (hne : k' ≠ k) :
    pyLookup (pySet d k v) k' = pyLookup d k' := by
  have hne' : ¬k = k' := fun h => hne h.symm
  induction d with
  | nil => simp [pySet, pyLookup, hne']
  | cons kv rest ih =>
      obtain ⟨k₀, v₀⟩ := kv
      by_cases hk : k₀ = k
      · subst hk
        simp [pySet, pyLookup, hne']
      · simp [pySet, pyLookup, hk, ih]

theorem pyLookup_pyDel_ne {d : PyDict} {k k' : String} (hne : k' ≠ k) :
    pyLookup (pyDel d k) k' = pyLookup d k' := by
  have hne' : ¬k = k' := fun h => hne h.symm
  induction d with
  | nil => simp [pyDel]
  | cons kv rest ih =>
      obtain ⟨k₀, v₀⟩ := kv
      by_cases hk : k₀ = k
      · subst hk
        simp [pyDel, pyLookup, hne']
      · simp [pyDel, pyLookup, hk, ih]

/-- The dotted-key-adding inner loop of `collapseEntry` never changes the
binding of a key that is already present. -/
theorem collapseAdds_lookup (k : String) (sub : PyDict) (k' : String) :
    ∀ (ks : List String) (acc : PyDict), (pyLookup acc k').isSome →
      pyLookup
        (ks.foldl
          (fun acc ck =>
            let nk := k ++ "." ++ ck
            if pyMem acc nk then acc
            else acc ++ [(nk, (pyLookup sub ck).getD PyVal.vnone)])
          acc) k'
        = pyLookup acc k' := by
  intro ks
  induction ks with
  | nil => intro acc _; rfl
  | cons c cs ih =>
      intro acc hs
      cases hmem : pyMem acc (k ++ "." ++ c) with
      | true => simpa [List.foldl, hmem] using ih acc hs
      | false =>
          have happ := pyLookup_append_of_isSome
            [(k ++ "." ++ c, (pyLookup sub c).getD PyVal.vnone)] hs
          have hs' : (pyLookup (acc ++ [(k ++ "." ++ c, (pyLookup sub c).getD PyVal.vnone)]) k').isSome := by
            rw [happ]; exact hs
          have hstep := ih (acc ++ [(k ++ "." ++ c, (pyLookup sub c).getD PyVal.vnone)]) hs'
          simp only [List.foldl, hmem, Bool.false_eq_true, if_false]
          rw [hstep, happ]

/-- Processing one dict-valued key leaves every other present key's
binding unchanged. -/
theorem collapseEntry_lookup_ne {d : PyDict} {k k' : String} (sub : PyDict)
    (hne : k' ≠ k) (hs : (pyLookup d k').isSome) :
    pyLookup (collapseEntry k sub d) k' = pyLookup d k' := by
  unfold collapseEntry
  have h1 : pyLookup (pySet d k (PyVal.vdict sub)) k' = pyLookup d k' :=
    pyLookup_pySet_ne _ hne
  have hs1 : (pyLookup (pySet d k (PyVal.vdict sub)) k').isSome := by rw [h1]; exact hs
  rw [pyLookup_pyDel_ne hne, collapseAdds_lookup k sub k' (pyKeys sub) _ hs1, h1]

/-- The outer loop of `collapse_data` preserves the binding of every key
whose value is not a nested dictionary. -/
theorem collapseGo_lookup (recurse : PyDict → PyDict) (k' : String) (v : PyVal)
    (hv : isDictVal v = false) :
    ∀ (ks : List String) (d : PyDict), pyLookup d k' = some v →
      pyLookup (collapseGo recurse ks d) k' = some v := by
  intro ks
  induction ks with
  | nil => intro d h; exact h
  | cons k rest ih =>
      intro d h
      simp only [collapseGo]
      split
      · next sub heq =>
          have hne : k' ≠ k := by
            intro hkk
            subst hkk
            rw [h] at heq
            cases heq
            simp [isDictVal] at hv
          refine ih _ ?_
          rw [collapseEntry_lookup_ne (recurse sub) hne (by rw [h]; rfl), h]
      · exact ih d h

/-- `collapseF` (any fuel) preserves every non-dict binding. -/
theorem collapseF_lookup (fuel : Nat) (d : PyDict) (k' : String) (v : PyVal)
    (hv : isDictVal v = false) (h : pyLookup d k' = some v) :
    pyLookup (collapseF fuel d) k' = some v := by
  cases fuel with
  | zero => exact h
  | succ n => exact collapseGo_lookup (collapseF n) k' v hv (pyKeys d) d h

/-! ## Heap and event-view lemmas -/

theorem heapGet_append_lt {h : PropsHeap} {a : Addr} (t : PropsHeap)
    (hlt : a < h.length) : heapGet (h ++ t) a = heapGet h a := by
  unfold heapGet
  rw [List.getElem?_append_left hlt]

theorem heapGet_append_self (h : PropsHeap) (d : PyDict) :
    heapGet (h ++ [d]) h.length = d := by
  unfold heapGet
  rw [List.getElem?_append_right (Nat.le_refl _)]
  simp

theorem heapGet_congr {h h' : PropsHeap} {a : Addr}
    (hc : h'[a]? = h[a]?) : heapGet h' a = heapGet h a := by
  unfold heapGet
  rw [hc]

theorem eventView_congr {h h' : PropsHeap} {e : EventObj}
    (hc : ∀ kf, kf ∈ e → ∀ a, kf.2 = FieldVal.ref a → heapGet h' a = heapGet h a) :
    eventView h' e = eventView h e := by
  induction e with
  | nil => rfl
  | cons kf rest ih =>
      obtain ⟨k, f⟩ := kf
      have hrest : eventView h' rest = eventView h rest :=
        ih (fun kf' hm a ha => hc kf' (by simp [hm]) a ha)
      cases f with
      | scalar v => simp [eventView] at hrest ⊢; exact hrest
      | ref a =>
          have := hc (k, FieldVal.ref a) (by simp) a rfl
          simp [eventView] at hrest ⊢
          exact ⟨this, hrest⟩

theorem eventView_append (h : PropsHeap) (e₁ e₂ : EventObj) :
    eventView h (e₁ ++ e₂) = eventView h e₁ ++ eventView h e₂ := by
  unfold eventView
  exact List.map_append _ _ _

theorem fieldRefLT_mono {f : FieldVal} {m n : Nat} (hmn : m ≤ n)
    (hf : fieldRefLT f m = true) : fieldRefLT f n = true := by
  cases f with
  | scalar v => rfl
  | ref a =>
      have hf' : a < m := by simpa [fieldRefLT] using hf
      have hn : a < n := Nat.lt_of_lt_of_le hf' hmn
      simpa [fieldRefLT] using hn

theorem prefixEq_refl (n : Nat) (h : PropsHeap) : PrefixEq n h h :=
  fun _ _ => rfl

theorem prefixEq_trans {n : Nat} {h₁ h₂ h₃ : PropsHeap}
    (h12 : PrefixEq n h₁ h₂) (h23 : PrefixEq n h₂ h₃) : PrefixEq n h₁ h₃ :=
  fun b hb => (h23 b hb).trans (h12 b hb)

theorem prefixEq_append {n : Nat} {h : PropsHeap} (t : PropsHeap)
    (hn : n ≤ h.length) : PrefixEq n h (h ++ t) :=
  fun _ hb => List.getElem?_append_left (Nat.lt_of_lt_of_le hb hn)

theorem propWrite_prefixEq {n : Nat} {a : Addr} (h : PropsHeap) (k : String)
    (v : PyVal) (hge : n ≤ a) : PrefixEq n h (propWrite h a k v) := by
  intro b hb
  unfold propWrite heapWrite
  exact List.getElem?_set_ne (by omega)

/-- Fold invariant for `copy.deepcopy`: the heap only grows, the copy
references only fresh addresses, and the copy's view equals the
original's view. -/

theorem dc_go {h : PropsHeap} :
    ∀ (es : List (String × FieldVal)) (hAcc : PropsHeap) (eAcc : EventObj),
      (∃ t, hAcc = h ++ t) →
      EvRefsLT eAcc hAcc.length →
      EvRefsGE eAcc h.length →
      EvRefsLT es h.length →
      (∃ t, (es.foldl dcStep (hAcc, eAcc)).1 = h ++ t) ∧
      EvRefsLT (es.foldl dcStep (hAcc, eAcc)).2 (es.foldl dcStep (hAcc, eAcc)).1.length ∧
      EvRefsGE (es.foldl dcStep (hAcc, eAcc)).2 h.length ∧
      eventView (es.foldl dcStep (hAcc, eAcc)).1 (es.foldl dcStep (hAcc, eAcc)).2
        = eventView hAcc eAcc ++ eventView h es := by
  intro es
  induction es with
  | nil =>
      intro hAcc eAcc hext hlt hge _
      exact ⟨hext, hlt, hge, by simp [eventView]⟩
  | cons kf rest ih =>
      intro hAcc eAcc hext hlt hge hes
      obtain ⟨k, f⟩ := kf
      obtain ⟨t, ht⟩ := hext
      have hlen : h.length ≤ hAcc.length := by
        rw [ht]; simp
      have hesr : EvRefsLT rest h.length := fun kf' hm => hes kf' (by simp [hm])
      cases f with
      | scalar v =>
          have step : dcStep (hAcc, eAcc) (k, FieldVal.scalar v)
              = (hAcc, eAcc ++ [(k, FieldVal.scalar v)]) := rfl
          rw [List.foldl_cons, step]
          have hlt' : EvRefsLT (eAcc ++ [(k, FieldVal.scalar v)]) hAcc.length := by
            intro kf' hm
            rcases List.mem_append.mp hm with hm1 | hm2
            · exact hlt kf' hm1
            · rcases List.mem_singleton.mp hm2 with rfl
              rfl
          have hge' : EvRefsGE (eAcc ++ [(k, FieldVal.scalar v)]) h.length := by
            intro kf' hm
            rcases List.mem_append.mp hm with hm1 | hm2
            · exact hge kf' hm1
            · rcases List.mem_singleton.mp hm2 with rfl
              rfl
          obtain ⟨he1, he2, he3, he4⟩ := ih hAcc (eAcc ++ [(k, FieldVal.scalar v)])
            ⟨t, ht⟩ hlt' hge' hesr
          refine ⟨he1, he2, he3, ?_⟩
          rw [he4, eventView_append]
          simp [eventView]
      | ref a =>
          have ha : a < h.length := by
            have := hes (k, FieldVal.ref a) (by simp)
            simpa [fieldRefLT] using this
          have step : dcStep (hAcc, eAcc) (k, FieldVal.ref a)
              = (hAcc ++ [heapGet hAcc a], eAcc ++ [(k, FieldVal.ref hAcc.length)]) := rfl
          rw [List.foldl_cons, step]
          have hlt' : EvRefsLT (eAcc ++ [(k, FieldVal.ref hAcc.length)])
              (hAcc ++ [heapGet hAcc a]).length := by
            intro kf' hm
            rcases List.mem_append.mp hm with hm1 | hm2
            · exact fieldRefLT_mono (by simp) (hlt kf' hm1)
            · rcases List.mem_singleton.mp hm2 with rfl
              simp [fieldRefLT]
          have hge' : EvRefsGE (eAcc ++ [(k, FieldVal.ref hAcc.length)]) h.length := by
            intro kf' hm
            rcases List.mem_append.mp hm with hm1 | hm2
            · exact hge kf' hm1
            · rcases List.mem_singleton.mp hm2 with rfl
              simpa [fieldRefGE] using hlen
          obtain ⟨he1, he2, he3, he4⟩ := ih (hAcc ++ [heapGet hAcc a])
            (eAcc ++ [(k, FieldVal.ref hAcc.length)])
            ⟨t ++ [heapGet hAcc a], by rw [ht]; simp⟩ hlt' hge' hesr
          refine ⟨he1, he2, he3, ?_⟩
          rw [he4, eventView_append]
          have hv1 : eventView (hAcc ++ [heapGet hAcc a]) eAcc = eventView hAcc eAcc := by
            refine eventView_congr ?_
            intro kf' hm a' ha'
            refine heapGet_append_lt _ ?_
            have := hlt kf' hm
            rw [ha'] at this
            simpa [fieldRefLT] using this
          have hv2 : heapGet (hAcc ++ [heapGet hAcc a]) hAcc.length = heapGet hAcc a :=
            heapGet_append_self _ _
          have hv3 : heapGet hAcc a = heapGet h a := by
            rw [ht]
            exact heapGet_append_lt _ ha
          rw [hv1]
          have hv4 : heapGet (hAcc ++ [heapGet hAcc a]) hAcc.length = heapGet h a :=
            hv2.trans hv3
          simp [eventView, hv4]

/-- Specification of `copy.deepcopy(event)`: the heap is extended, the
copy's references are fresh and in range, and the copy's contents equal
the original's. -/
theorem deepcopyEvent_spec {h : PropsHeap} {e : EventObj} (hwf : EvRefsLT e h.length) :
    (∃ t, (deepcopyEvent h e).1 = h ++ t) ∧
    EvRefsLT (deepcopyEvent h e).2 (deepcopyEvent h e).1.length ∧
    EvRefsGE (deepcopyEvent h e).2 h.length ∧
    eventView (deepcopyEvent h e).1 (deepcopyEvent h e).2 = eventView h e := by
  have := @dc_go h e h [] ⟨[], by simp⟩
    (fun kf hm => absurd hm (List.not_mem_nil _))
    (fun kf hm => absurd hm (List.not_mem_nil _)) hwf
  unfold deepcopyEvent
  simpa [eventView] using this

/-! ## Frame lemmas for the redaction engine -/

theorem prefixEq_foldl {α : Type} {n : Nat} {g : PropsHeap → α → PropsHeap}
    (H : ∀ h' x, PrefixEq n h' (g h' x)) :
    ∀ (xs : List α) (h : PropsHeap), PrefixEq n h (xs.foldl g h) := by
  intro xs
  induction xs with
  | nil => intro h; exact prefixEq_refl n h
  | cons x rest ih =>
      intro h
      exact prefixEq_trans (H h x) (ih (g h x))

theorem blockPass_prefixEq {n : Nat} {a : Addr} (rmatch : String → String → Bool)
    (p : String) (h : PropsHeap) (hge : n ≤ a) :
    PrefixEq n h (blockPass rmatch p a h) := by
  unfold blockPass
  refine prefixEq_foldl (fun h' k => ?_) _ h
  by_cases hm : rmatch p k = true
  · rw [if_pos hm]; exact propWrite_prefixEq h' k _ hge
  · rw [if_neg hm]; exact prefixEq_refl n h'

theorem allowPass_prefixEq {n : Nat} {a : Addr} (rmatch : String → String → Bool)
    (p : String) (aOrig : Addr) (h : PropsHeap) (hge : n ≤ a) :
    PrefixEq n h (allowPass rmatch p aOrig a h) := by
  unfold allowPass
  refine prefixEq_foldl (fun h' k => ?_) _ h
  by_cases hm : rmatch p k = true
  · rw [if_pos hm]; exact propWrite_prefixEq h' k _ hge
  · rw [if_neg hm]; exact prefixEq_refl n h'

theorem allowFinalPass_prefixEq {n : Nat} {a : Addr} (aOrig : Addr) (h : PropsHeap)
    (hge : n ≤ a) : PrefixEq n h (allowFinalPass aOrig a h) := by
  unfold allowFinalPass
  refine prefixEq_foldl (fun h' k => ?_) _ h
  by_cases hm : pyMem (heapGet h' a) k = true
  · rw [if_pos hm]; exact prefixEq_refl n h'
  · rw [if_neg hm]; exact propWrite_prefixEq h' k _ hge

theorem optPass1_prefixEq {n : Nat} {pass : Addr → PropsHeap → PropsHeap}
    (H : ∀ a h, n ≤ a → PrefixEq n h (pass a h)) {oa : Option Addr}
    (hge : AddrGE oa n) (h : PropsHeap) : PrefixEq n h (optPass1 pass oa h) := by
  cases oa with
  | none => exact prefixEq_refl n h
  | some a => exact H a h (hge a rfl)

theorem optPass_prefixEq {n : Nat} {pass : Addr → Addr → PropsHeap → PropsHeap}
    (H : ∀ ao a h, n ≤ a → PrefixEq n h (pass ao a h)) {oa oao : Option Addr}
    (hge : AddrGE oa n) (h : PropsHeap) : PrefixEq n h (optPass pass oa oao h) := by
  cases oa with
  | none => cases oao <;> exact prefixEq_refl n h
  | some a =>
      cases oao with
      | none => exact prefixEq_refl n h
      | some ao => exact H ao a h (hge a rfl)

theorem applyRuleProp_prefixEq {n : Nat} (rmatch : String → String → Bool) (mode : String)
    (aRP aORP aRPo aORPo : Option Addr) (hRP : AddrGE aRP n) (hORP : AddrGE aORP n)
    (h : PropsHeap) (p : String) :
    PrefixEq n h (applyRuleProp rmatch mode aRP aORP aRPo aORPo h p) := by
  unfold applyRuleProp
  by_cases hb : mode = "block"
  · rw [if_pos hb]
    exact prefixEq_trans
      (optPass1_prefixEq (fun a h ha => blockPass_prefixEq rmatch p h ha) hRP h)
      (optPass1_prefixEq (fun a h ha => blockPass_prefixEq rmatch p h ha) hORP _)
  · rw [if_neg hb]
    by_cases ha : mode = "allow"
    · rw [if_pos ha]
      exact prefixEq_trans
        (optPass_prefixEq (fun ao a h hx => allowPass_prefixEq rmatch p ao h hx) hRP h)
        (optPass_prefixEq (fun ao a h hx => allowPass_prefixEq rmatch p ao h hx) hORP _)
    · rw [if_neg ha]; exact prefixEq_refl n h

theorem applyRules_prefixEq {n : Nat} (research rmatch : String → String → Bool)
    (cfg : RedactionConfigM) (rtype : String) (aRP aORP aRPo aORPo : Option Addr)
    (hRP : AddrGE aRP n) (hORP : AddrGE aORP n) (h : PropsHeap) :
    PrefixEq n h (applyRules research rmatch cfg rtype aRP aORP aRPo aORPo h) := by
  unfold applyRules
  refine prefixEq_foldl (fun hAcc rule => ?_) _ h
  by_cases hr : research rule.1 rtype = true
  · rw [if_pos hr]
    exact prefixEq_foldl
      (fun h' p => applyRuleProp_prefixEq rmatch cfg.redactMode aRP aORP aRPo aORPo
        hRP hORP h' p) _ hAcc
  · rw [if_neg hr]; exact prefixEq_refl n hAcc

theorem allowFinal_prefixEq {n : Nat} (cfg : RedactionConfigM)
    (aRP aORP aRPo aORPo : Option Addr) (hRP : AddrGE aRP n) (hORP : AddrGE aORP n)
    (h : PropsHeap) :
    PrefixEq n h (allowFinal cfg aRP aORP aRPo aORPo h) := by
  unfold allowFinal
  by_cases ha : cfg.redactMode = "allow"
  · rw [if_pos ha]
    exact prefixEq_trans
      (optPass_prefixEq (fun ao a h hx => allowFinalPass_prefixEq ao h hx) hRP h)
      (optPass_prefixEq (fun ao a h hx => allowFinalPass_prefixEq ao _ hx) hORP _)
  · rw [if_neg ha]; exact prefixEq_refl n h

theorem evSet_mem {e : EventObj} {k : String} {f : FieldVal} :
    ∀ kf ∈ evSet e k f, kf ∈ e ∨ kf = (k, f) := by
  induction e with
  | nil =>
      intro kf hm
      right
      simpa [evSet] using hm
  | cons kv rest ih =>
      intro kf hm
      obtain ⟨k0, f0⟩ := kv
      by_cases hk : k0 = k
      · rw [evSet, if_pos hk] at hm
        rcases List.mem_cons.mp hm with rfl | hm
        · right; rfl
        · left; exact List.mem_cons_of_mem _ hm
      · rw [evSet, if_neg hk] at hm
        rcases List.mem_cons.mp hm with rfl | hm
        · left; exact List.mem_cons_self _ _
        · rcases ih kf hm with h1 | h1
          · left; exact List.mem_cons_of_mem _ h1
          · right; exact h1

theorem evLookup_mem {e : EventObj} {k : String} {f : FieldVal}
    (h : evLookup e k = some f) : (k, f) ∈ e := by
  induction e with
  | nil => cases h
  | cons kv rest ih =>
      obtain ⟨k0, f0⟩ := kv
      by_cases hk : k0 = k
      · subst hk
        rw [evLookup, if_pos rfl] at h
        cases h
        exact List.mem_cons_self _ _
      · rw [evLookup, if_neg hk] at h
        exact List.mem_cons_of_mem _ (ih h)

theorem fieldAddr_ge {e : EventObj} {k : String} {a : Addr} {n : Nat}
    (hge : EvRefsGE e n) (hf : fieldAddr e k = some a) : n ≤ a := by
  unfold fieldAddr at hf
  cases hl : evLookup e k with
  | none => rw [hl] at hf; cases hf
  | some f =>
      rw [hl] at hf
      cases f with
      | scalar v => cases hf
      | ref a' =>
          cases hf
          have := hge _ (evLookup_mem hl)
          simpa [fieldRefGE] using this

theorem blankField_spec {st : PropsHeap × EventObj} {k : String} {n : Nat}
    (hge : EvRefsGE st.2 n) (hlen : n ≤ st.1.length) :
    (∃ t, (blankField st k).1 = st.1 ++ t) ∧ EvRefsGE (blankField st k).2 n := by
  unfold blankField
  by_cases hm : (evLookup st.2 k).isSome = true
  · rw [if_pos hm]
    refine ⟨⟨[[]], rfl⟩, ?_⟩
    intro kf hmem
    rcases evSet_mem kf hmem with h1 | h1
    · exact hge kf h1
    · rw [h1]; simpa [fieldRefGE] using hlen
  · rw [if_neg hm]
    exact ⟨⟨[], by simp⟩, hge⟩

theorem allowBlank_spec (cfg : RedactionConfigM) {st : PropsHeap × EventObj} {n : Nat}
    (hge : EvRefsGE st.2 n) (hlen : n ≤ st.1.length) :
    (∃ t, (allowBlank cfg st).1 = st.1 ++ t) ∧ EvRefsGE (allowBlank cfg st).2 n := by
  unfold allowBlank
  by_cases ha : cfg.redactMode = "allow"
  · rw [if_pos ha]
    obtain ⟨⟨t1, ht1⟩, hge1⟩ := @blankField_spec st "ResourceProperties" n hge hlen
    have hlen1 : n ≤ (blankField st "ResourceProperties").1.length := by
      rw [ht1]; simp; omega
    obtain ⟨⟨t2, ht2⟩, hge2⟩ := @blankField_spec (blankField st "ResourceProperties")
      "OldResourceProperties" n hge1 hlen1
    refine ⟨⟨t1 ++ t2, ?_⟩, hge2⟩
    rw [ht2, ht1, List.append_assoc]
  · rw [if_neg ha]
    exact ⟨⟨[], by simp⟩, hge⟩

/-- Frame property of the redaction core: every heap address that existed
before the call holds the same dictionary afterwards (all writes go to
the fresh addresses of the deep copy). -/
theorem redactCore_frame (research rmatch : String → String → Bool)
    (cfg : RedactionConfigM) {h : PropsHeap} {event : EventObj}
    (hwf : EvRefsLT event h.length) :
    PrefixEq h.length h (redactCore research rmatch cfg h event).1 := by
  obtain ⟨⟨t0, ht0⟩, hlt0, hge0, hv0⟩ := deepcopyEvent_spec hwf
  have hlen0 : h.length ≤ (deepcopyEvent h event).1.length := by rw [ht0]; simp
  have hgeD : EvRefsGE (deepcopyEvent h event).2 h.length := hge0
  obtain ⟨⟨t1, ht1⟩, hge1⟩ := allowBlank_spec cfg hgeD hlen0
  have hRP : AddrGE (fieldAddr (allowBlank cfg (deepcopyEvent h event)).2
      "ResourceProperties") h.length :=
    fun a ha => fieldAddr_ge hge1 ha
  have hORP : AddrGE (fieldAddr (allowBlank cfg (deepcopyEvent h event)).2
      "OldResourceProperties") h.length :=
    fun a ha => fieldAddr_ge hge1 ha
  have p1 : PrefixEq h.length h (deepcopyEvent h event).1 := by
    rw [ht0]; exact prefixEq_append t0 (Nat.le_refl _)
  have p2 : PrefixEq h.length (deepcopyEvent h event).1
      (allowBlank cfg (deepcopyEvent h event)).1 := by
    rw [ht1]
    exact prefixEq_append t1 hlen0
  have p3 := applyRules_prefixEq research rmatch cfg (getRTypeEv event)
    (fieldAddr (allowBlank cfg (deepcopyEvent h event)).2 "ResourceProperties")
    (fieldAddr (allowBlank cfg (deepcopyEvent h event)).2 "OldResourceProperties")
    (fieldAddr event "ResourceProperties") (fieldAddr event "OldResourceProperties")
    hRP hORP (allowBlank cfg (deepcopyEvent h event)).1
  have p4 := allowFinal_prefixEq cfg
    (fieldAddr (allowBlank cfg (deepcopyEvent h event)).2 "ResourceProperties")
    (fieldAddr (allowBlank cfg (deepcopyEvent h event)).2 "OldResourceProperties")
    (fieldAddr event "ResourceProperties") (fieldAddr event "OldResourceProperties")
    hRP hORP
    (applyRules research rmatch cfg (getRTypeEv event)
      (fieldAddr (allowBlank cfg (deepcopyEvent h event)).2 "ResourceProperties")
      (fieldAddr (allowBlank cfg (deepcopyEvent h event)).2 "OldResourceProperties")
      (fieldAddr event "ResourceProperties") (fieldAddr event "OldResourceProperties")
      (allowBlank cfg (deepcopyEvent h event)).1)
  exact prefixEq_trans p1 (prefixEq_trans p2 (prefixEq_trans p3 p4))


theorem foldl_congr_id {α : Type} {g : PropsHeap → α → PropsHeap} :
    ∀ (xs : List α) (h : PropsHeap), (∀ x ∈ xs, ∀ hh, g hh x = hh) →
      xs.foldl g h = h := by
  intro xs
  induction xs with
  | nil => intro h _; rfl
  | cons x rest ih =>
      intro h hid
      rw [List.foldl_cons, hid x (by simp) h]
      exact ih h (fun x' hm hh => hid x' (by simp [hm]) hh)

theorem applyRules_nomatch (research rmatch : String → String → Bool)
    (cfg : RedactionConfigM) (rtype : String) (aRP aORP aRPo aORPo : Option Addr)
    (h : PropsHeap)
    (hnom : ∀ rule ∈ cfg.redactProperties, research rule.1 rtype = false) :
    applyRules research rmatch cfg rtype aRP aORP aRPo aORPo h = h := by
  unfold applyRules
  refine foldl_congr_id _ h (fun rule hm hh => ?_)
  rw [hnom rule hm]
  simp

/-! ## Lemmas about the response body -/

theorem mkResponseBody_pid (status : String) (reason : Option String) (pidv : PyVal)
    (stackId reqId logId : PyVal) (data : Option PyDict) (squash : Bool) :
    pyLookup (mkResponseBody status reason pidv stackId reqId logId data squash)
      "PhysicalResourceId" = some pidv := by
  cases reason <;> cases data <;> cases squash <;> rfl

theorem mkResponseBody_data (status : String) (reason : Option String) (pidv : PyVal)
    (stackId reqId logId : PyVal) (dd : PyDict) (squash : Bool) :
    pyLookup (mkResponseBody status reason pidv stackId reqId logId (some dd) squash)
      "Data" = some (PyVal.vdict dd) := by
  cases reason <;> cases squash <;> rfl

theorem mkResponseBody_reason (status : String) (r : String) (pidv : PyVal)
    (stackId reqId logId : PyVal) (data : Option PyDict) (squash : Bool) :
    pyLookup (mkResponseBody status (some r) pidv stackId reqId logId data squash)
      "Reason" = some (PyVal.vstr r) := by
  cases data <;> cases squash <;> rfl

/-- Inversion of the build phase: a successful `cfnbuild` resolved a
physical resource id by `pidSelect`/`pidResolve`, collapsed the data
in place, and assembled the body with `mkResponseBody`. -/
theorem cfnbuild_ok_shape {event : PyDict} {st : String} {rr : Option String}
    {rd : Option PyVal} {pid : Option String} {ctx : Option LambdaContext} {sq : Bool}
    {rb : PyDict} {fd : Option PyDict}
    (h : cfnbuild event st rr rd pid ctx sq = .ok (rb, fd)) :
    ∃ pidv, pidResolve (pidSelect pid event) ctx = some pidv ∧
      fd = collapsedData rd ∧
      rb = mkResponseBody st (computeReason st rr rd ctx) pidv
            ((pyLookup event "StackId").getD PyVal.vnone)
            ((pyLookup event "RequestId").getD PyVal.vnone)
            ((pyLookup event "LogicalResourceId").getD PyVal.vnone) fd sq := by
  unfold cfnbuild at h
  split at h
  · cases h
  · cases h
  · split at h
    · cases h
    · split at h
      · cases h
      · split at h
        · cases h
        · split at h
          · cases h
          · next pidv heq =>
              cases h
              exact ⟨pidv, heq, rfl, rfl⟩

/-- Evaluation of `cfnresponse` once the build phase has succeeded: only
the size gate remains between the built body and the PUT. -/
theorem cfnresponse_eq_of_build {event : PyDict} {st : String} {rr : Option String}
    {rd : Option PyVal} {pid : Option String} {ctx : Option LambdaContext} {sq : Bool}
    {rb : PyDict} {fd : Option PyDict}
    (hb : cfnbuild event st rr rd pid ctx sq = .ok (rb, fd)) :
    cfnresponse event st rr rd pid ctx sq =
      (if pyStrSizeof (jsonVal (PyVal.vdict rb)) ≥ CUSTOM_RESOURCE_SIZE_LIMIT
       then .error (.responseTooLong (pyStrSizeof (jsonVal (PyVal.vdict rb))))
       else .ok { url := (match pyLookup event "ResponseURL" with
                          | some (PyVal.vstr u) => u
                          | _ => ""),
                  body := jsonVal (PyVal.vdict rb),
                  size := pyStrSizeof (jsonVal (PyVal.vdict rb)),
                  responseBody := rb, finalResponseData := fd }) := by
  unfold cfnresponse
  rw [hb]

/-- Inversion of a successful `cfnresponse`: the build phase succeeded,
the size check passed, and the PUT carries the serialized built body. -/
theorem cfnresponse_ok_inv {event : PyDict} {st : String} {rr : Option String}
    {rd : Option PyVal} {pid : Option String} {ctx : Option LambdaContext} {sq : Bool}
    {put : CfnPut}
    (h : cfnresponse event st rr rd pid ctx sq = .ok put) :
    ∃ rb fd, cfnbuild event st rr rd pid ctx sq = .ok (rb, fd) ∧
      put.responseBody = rb ∧ put.finalResponseData = fd ∧
      put.body = jsonVal (PyVal.vdict rb) ∧
      pyStrSizeof (jsonVal (PyVal.vdict rb)) < CUSTOM_RESOURCE_SIZE_LIMIT := by
  cases hb : cfnbuild event st rr rd pid ctx sq with
  | error e =>
      unfold cfnresponse at h
      rw [hb] at h
      cases h
  | ok p =>
      obtain ⟨rb, fd⟩ := p
      rw [cfnresponse_eq_of_build hb] at h
      by_cases hsz : pyStrSizeof (jsonVal (PyVal.vdict rb)) ≥ CUSTOM_RESOURCE_SIZE_LIMIT
      · rw [if_pos hsz] at h; cases h
      · rw [if_neg hsz] at h
        cases h
        exact ⟨rb, fd, rfl, rfl, rfl, rfl, by omega⟩

/-! ## Lemmas for the request validator -/


theorem pyMem_eq_false_of_not_mem_keys {d : PyDict} {k : String} (h : k ∉ pyKeys d) :
    pyMem d k = false := by
  induction d with
  | nil => rfl
  | cons kv rest ih =>
      obtain ⟨k₀, v₀⟩ := kv
      rw [pyKeys, List.map_cons] at h
      simp only [List.mem_cons, not_or] at h
      obtain ⟨h1, h2⟩ := h
      simp only [pyMem, pyLookup]
      rw [if_neg (fun he => h1 he.symm)]
      exact ih (by simpa [pyKeys] using h2)

theorem pyMem_pyDel_self {d : PyDict} {k : String} (hn : (pyKeys d).Nodup) :
    pyMem (pyDel d k) k = false := by
  induction d with
  | nil => rfl
  | cons kv rest ih =>
      obtain ⟨k₀, v₀⟩ := kv
      rw [pyKeys, List.map_cons] at hn
      obtain ⟨hnotin, hn'⟩ := List.nodup_cons.mp hn
      by_cases hk : k₀ = k
      · subst hk
        simp only [pyDel, if_pos rfl]
        exact pyMem_eq_false_of_not_mem_keys (by simpa [pyKeys] using hnotin)
      · simp only [pyDel, if_neg hk, pyMem, pyLookup]
        exact ih (by simpa [pyKeys] using hn')

theorem is_valid_event_of_missing (event : PyDict) (k : String)
    (hk : k ∈ requiredEventKeys) (hnm : pyMem event k = false) :
    is_valid_event event = some false := by
  have hall : requiredEventKeys.all (fun k => pyMem event k) = false := by
    cases hA : requiredEventKeys.all (fun k => pyMem event k) with
    | false => rfl
    | true =>
        have := List.all_eq_true.mp hA k hk
        rw [hnm] at this
        cases this
  simp [is_valid_event, hall]

theorem vstr_beq_false {s t : String} (h : s ≠ t) :
    (PyVal.vstr s == PyVal.vstr t) = false := by
  have h' : ¬(PyVal.vstr s = PyVal.vstr t) := by
    intro he; cases he; exact h rfl
  show decide (PyVal.vstr s = PyVal.vstr t) = false
  exact decide_eq_false h'

theorem requestTypeRecognized_vstr_false {s : String} (h1 : s ≠ "Create")
    (h2 : s ≠ "Update") (h3 : s ≠ "Delete") :
    requestTypeRecognized (PyVal.vstr s) = false := by
  simp [requestTypeRecognized, vstr_beq_false h1, vstr_beq_false h2, vstr_beq_false h3]

theorem schemeNotOk_of_ne {s : String} (h1 : s ≠ "http") (h2 : s ≠ "https") :
    schemeNotOk s = true := by
  simp [schemeNotOk, h1, h2]

/-! ## Concrete request objects used by witnesses and counterexamples -/

/-! ## Claim theorems -/

/-- C4: characterization of `is_valid_event`: a mapping with all six
required fields, a recognized RequestType, an http/https callback URL and
(for Update/Delete) a PhysicalResourceId validates; removing any required
field, an unrecognized RequestType, a non-http(s) URL scheme, or a
missing PhysicalResourceId on Update/Delete each make it return false. -/
theorem c4_is_valid_event_characterization (event : PyDict) :
    ((∀ k, k ∈ requiredEventKeys → pyMem event k = true) →
     ∀ rt url, pyLookup event "RequestType" = some (PyVal.vstr rt) →
       (rt = "Create" ∨ rt = "Update" ∨ rt = "Delete") →
       pyLookup event "ResponseURL" = some (PyVal.vstr url) →
       (urlScheme url = "http" ∨ urlScheme url = "https") →
       ((rt = "Update" ∨ rt = "Delete") → pyMem event "PhysicalResourceId" = true) →
       is_valid_event event = some true) ∧
    ((pyKeys event).Nodup →
     ∀ k, k ∈ requiredEventKeys → is_valid_event (pyDel event k) = some false) ∧
    (∀ rt, pyLookup event "RequestType" = some (PyVal.vstr rt) →
       rt ≠ "Create" → rt ≠ "Update" → rt ≠ "Delete" →
       is_valid_event event = some false) ∧
    (∀ url, pyLookup event "ResponseURL" = some (PyVal.vstr url) →
       urlScheme url ≠ "http" → urlScheme url ≠ "https" →
       is_valid_event event = some false) ∧
    (∀ rt url, pyLookup event "RequestType" = some (PyVal.vstr rt) →
       (rt = "Update" ∨ rt = "Delete") →
       pyLookup event "ResponseURL" = some (PyVal.vstr url) →
       pyMem event "PhysicalResourceId" = false →
       is_valid_event event = some false) := by
  refine ⟨?_, ?_, ?_, ?_, ?_⟩
  · -- positive direction
    intro hall rt url hrt hrtv hurl hscheme hpid
    have h1 : requiredEventKeys.all (fun k => pyMem event k) = true := by
      rw [List.all_eq_true]; intro k hk; exact hall k hk
    rcases hrtv with rfl | rfl | rfl
    · rcases hscheme with hs | hs <;>
        simp [is_valid_event, h1, hrt, hurl, hs, requestTypeRecognized, isUpdateOrDelete,
          schemeNotOk]
    · have hp := hpid (Or.inl rfl)
      rcases hscheme with hs | hs <;>
        simp [is_valid_event, h1, hrt, hurl, hs, hp, requestTypeRecognized, isUpdateOrDelete,
          schemeNotOk]
    · have hp := hpid (Or.inr rfl)
      rcases hscheme with hs | hs <;>
        simp [is_valid_event, h1, hrt, hurl, hs, hp, requestTypeRecognized, isUpdateOrDelete,
          schemeNotOk]
  · -- removing any required field
    intro hnodup k hk
    exact is_valid_event_of_missing _ k hk (pyMem_pyDel_self hnodup)
  · -- unrecognized request type
    intro rt hrt h1 h2 h3
    cases hall : requiredEventKeys.all (fun k => pyMem event k) with
    | false => simp [is_valid_event, hall]
    | true =>
        simp [is_valid_event, hall, hrt, requestTypeRecognized_vstr_false h1 h2 h3]
  · -- bad URL scheme
    intro url hurl h1 h2
    cases hall : requiredEventKeys.all (fun k => pyMem event k) with
    | false => simp [is_valid_event, hall]
    | true =>
        cases hrtl : pyLookup event "RequestType" with
        | none => simp [is_valid_event, hall, hrtl]
        | some rtv =>
            cases hrec : requestTypeRecognized rtv with
            | false => simp [is_valid_event, hall, hrtl, hrec]
            | true => simp [is_valid_event, hall, hrtl, hrec, hurl, schemeNotOk_of_ne h1 h2]
  · -- missing PhysicalResourceId on Update/Delete
    intro rt url hrt hud hurl hnm
    cases hall : requiredEventKeys.all (fun k => pyMem event k) with
    | false => simp [is_valid_event, hall]
    | true =>
        cases hsch : schemeNotOk (urlScheme url) with
        | true =>
            rcases hud with rfl | rfl <;>
              simp [is_valid_event, hall, hrt, hurl, hsch, requestTypeRecognized]
        | false =>
            rcases hud with rfl | rfl <;>
              simp [is_valid_event, hall, hrt, hurl, hsch, hnm, requestTypeRecognized,
                isUpdateOrDelete]

/-- Witness for C4: the six-field Create request with an https callback
URL validates. -/
theorem c4_is_valid_event_characterization_witness :
    is_valid_event sampleEvent = some true :=
  (c4_is_valid_event_characterization sampleEvent).1
    (by intro k hk; fin_cases hk <;> rfl)
    "Create" "https://example.com/cb" rfl (Or.inl rfl) rfl
    (Or.inr (by rfl))
    (fun h => absurd h (by decide))

/-- C1: once the envelope has been built, `cfnresponse` measures the size
of the canonical JSON serialization; if that size is ≥ 4096 bytes it
raises `ResponseTooLongException` without producing any network PUT, and
if it is < 4096 the check passes and the PUT is attempted with exactly
the full serialized body (never truncated). -/
theorem c1_size_ceiling_gate (event : PyDict) (st : String) (rr : Option String)
    (rd : Option PyVal) (pid : Option String) (ctx : Option LambdaContext) (sq : Bool)
    (rb : PyDict) (fd : Option PyDict)
    (h : cfnbuild event st rr rd pid ctx sq = .ok (rb, fd)) :
    (pyStrSizeof (jsonVal (PyVal.vdict rb)) ≥ CUSTOM_RESOURCE_SIZE_LIMIT →
       cfnresponse event st rr rd pid ctx sq =
         .error (.responseTooLong (pyStrSizeof (jsonVal (PyVal.vdict rb))))) ∧
    (pyStrSizeof (jsonVal (PyVal.vdict rb)) < CUSTOM_RESOURCE_SIZE_LIMIT →
       cfnresponse event st rr rd pid ctx sq =
         .ok { url := (match pyLookup event "ResponseURL" with
                       | some (PyVal.vstr u) => u
                       | _ => ""),
               body := jsonVal (PyVal.vdict rb),
               size := pyStrSizeof (jsonVal (PyVal.vdict rb)),
               responseBody := rb, finalResponseData := fd }) := by
  unfold cfnresponse
  rw [h]
  constructor
  · intro hsz
    simp only [if_pos hsz]
  · intro hsz
    simp only [if_neg (by omega : ¬pyStrSizeof (jsonVal (PyVal.vdict rb)) ≥
      CUSTOM_RESOURCE_SIZE_LIMIT)]

/-- Witness for C1 at a concrete small request: the size check passes and
the PUT carries the full serialized body. -/
theorem c1_size_ceiling_gate_witness :
    pyStrSizeof (jsonVal (PyVal.vdict sampleBody)) < CUSTOM_RESOURCE_SIZE_LIMIT ∧
    cfnresponse sampleEvent "SUCCESS" none none (some "pid-1") none false =
      .ok { url := "https://example.com/cb",
            body := jsonVal (PyVal.vdict sampleBody),
            size := pyStrSizeof (jsonVal (PyVal.vdict sampleBody)),
            responseBody := sampleBody, finalResponseData := none } :=
  ⟨by decide,
   (c1_size_ceiling_gate sampleEvent "SUCCESS" none none (some "pid-1") none false
      sampleBody none rfl).2 (by decide)⟩

/-- C2 (code bug): with status FAILED, no reason supplied and data
containing an `ExceptionThrown` key, `cfnresponse` sets the Reason to the
generic "Unknown failure occurred" instead of deriving it from
`ExceptionThrown` — the guard on response.py line 172 requires
`responseReason is not None`, contradicting the docstring on lines
128-129 ("If it contains ExceptionThrown on FAILED this is given as
reason overriding responseReason"). -/
theorem c2_exception_thrown_reason_bug :
    (cfnresponse sampleEvent "FAILED" none
        (some (PyVal.vdict [("ExceptionThrown", PyVal.vstr "ValueError")]))
        (some "pid-1") none false).map
      (fun p => pyLookup p.responseBody "Reason")
      = .ok (some (PyVal.vstr "Unknown failure occurred")) ∧
    "Unknown failure occurred" ≠
      "There was an exception thrown in execution of \x27ValueError\x27" := by
  constructor
  · rfl
  · decide

/-- C7 counterexample: the claim says the explicit `physicalResourceId`
argument wins whenever it is non-`None`, but with the explicit argument
`""` (non-`None`, falsy), an event carrying `PhysicalResourceId`
"P-from-event" and a context with log stream "log-stream-L", line 189's
`physicalResourceId or context.log_stream_name` discards the explicit
argument and uses the context-derived name instead. -/
theorem c7_pid_resolution_counterexample :
    (cfnresponse (sampleEvent ++ [("PhysicalResourceId", PyVal.vstr "P-from-event")])
        "SUCCESS" none none (some "") (some { log_stream_name := "log-stream-L" })
        false).map
      (fun p => pyLookup p.responseBody "PhysicalResourceId")
      = .ok (some (PyVal.vstr "log-stream-L")) ∧
    PyVal.vstr "log-stream-L" ≠ PyVal.vstr "" := by
  constructor
  · rfl
  · decide

/-- C7 (amended): physical-resource-id resolution in `cfnresponse`:
the candidate is the explicit argument if non-`None`, else the event's
`PhysicalResourceId` entry; a truthy candidate (e.g. a non-empty explicit
string, or a truthy event value) becomes the envelope's
`PhysicalResourceId`, while a falsy or missing candidate falls back to
the context's log stream name; and when the argument is `None`, the
event has no `PhysicalResourceId` and no context is supplied,
`cfnresponse` raises `NoPhysicalResourceIdException` before any delivery
attempt. -/
theorem c7_pid_resolution_amended (event : PyDict) (st : String) (rr : Option String)
    (rd : Option PyVal) (pid : Option String) (ctx : Option LambdaContext) (sq : Bool)
    (hvalid : is_valid_event event = some true) :
    (pid = none → ctx = none → pyMem event "PhysicalResourceId" = false →
       cfnresponse event st rr rd pid ctx sq = .error CfnErr.noPhysicalResourceId) ∧
    (∀ rb fd, cfnbuild event st rr rd pid ctx sq = .ok (rb, fd) →
       pyLookup rb "PhysicalResourceId" = pidResolve (pidSelect pid event) ctx) ∧
    (∀ s, pid = some s → s ≠ "" →
       pidResolve (pidSelect pid event) ctx = some (PyVal.vstr s)) ∧
    (∀ v, pid = none → pyLookup event "PhysicalResourceId" = some v → pyTruthy v = true →
       pidResolve (pidSelect pid event) ctx = some v) ∧
    (∀ c, ctx = some c →
       (pidSelect pid event = none ∨
        ∃ v, pidSelect pid event = some v ∧ pyTruthy v = false) →
       pidResolve (pidSelect pid event) ctx = some (PyVal.vstr c.log_stream_name)) := by
  refine ⟨?_, ?_, ?_, ?_, ?_⟩
  · intro h1 h2 h3
    subst h1; subst h2
    simp [cfnresponse, cfnbuild, hvalid, h3]
  · intro rb fd hb
    obtain ⟨pidv, hpid, hfd, hrb⟩ := cfnbuild_ok_shape hb
    rw [hrb, mkResponseBody_pid, hpid]
  · intro s hs hne
    subst hs
    simp [pidSelect, pidResolve, pyTruthy, String.isEmpty_iff, hne]
  · intro v h1 h2 h3
    subst h1
    simp [pidSelect, pidResolve, h2, h3]
  · intro c hc hfalsy
    subst hc
    rcases hfalsy with hnone | ⟨v, hv, hvf⟩
    · simp [pidResolve, hnone]
    · simp [pidResolve, hv, hvf]

/-- Witness for C7 at a concrete non-empty explicit id. -/
theorem c7_pid_resolution_amended_witness :
    pidResolve (pidSelect (some "pid-1") sampleEvent) none = some (PyVal.vstr "pid-1") :=
  (c7_pid_resolution_amended sampleEvent "SUCCESS" none none (some "pid-1") none false
      rfl).2.2.1 "pid-1" rfl (by decide)

/-- C5: normalization of non-`ResponseObject` results by
`handler_wrapper`: with no Lambda context, or with `enforceUseOfClass`
set, any non-`ResponseObject` result becomes a FAILED envelope; otherwise
`False` becomes FAILED, a dict becomes SUCCESS with that dict as data, a
string becomes SUCCESS with the string under the "Return" key, `None` or
`True` become the empty SUCCESS envelope, and any other type becomes
FAILED with an unsupported-type reason. -/
theorem c5_normalize_result_cases (funcName : String) (c : LambdaContext)
    (enforce : Bool) (result : FuncResult)
    (hnot : ∀ r, result ≠ FuncResult.respObj r) :
    ((normalize_result funcName none enforce result).responseStatus = "FAILED") ∧
    ((normalize_result funcName (some c) true result).responseStatus = "FAILED") ∧
    (normalize_result funcName (some c) false (FuncResult.rbool false) =
      { reason := some ("Function " ++ funcName ++ " returned False."),
        responseStatus := "FAILED" }) ∧
    (∀ d, normalize_result funcName (some c) false (FuncResult.rdict d) =
      { data := some (PyVal.vdict d) }) ∧
    (∀ s, normalize_result funcName (some c) false (FuncResult.rstr s) =
      { data := some (PyVal.vdict [("Return", PyVal.vstr s)]) }) ∧
    (normalize_result funcName (some c) false FuncResult.rnone = {}) ∧
    (normalize_result funcName (some c) false (FuncResult.rbool true) = {}) ∧
    (∀ cls, normalize_result funcName (some c) false (FuncResult.other cls) =
      { reason := some ("Return value from Function " ++ funcName ++
          " is of unsupported type " ++ cls),
        responseStatus := "FAILED" }) := by
  refine ⟨?_, ?_, rfl, fun d => rfl, fun s => rfl, rfl, rfl, fun cls => rfl⟩
  · cases result with
    | respObj r => exact absurd rfl (hnot r)
    | rbool b => rfl
    | rdict d => rfl
    | rstr s => rfl
    | rnone => rfl
    | other cls => rfl
  · cases result with
    | respObj r => exact absurd rfl (hnot r)
    | rbool b => rfl
    | rdict d => rfl
    | rstr s => rfl
    | rnone => rfl
    | other cls => rfl

/-- Witness for C5: a dict result with a context and no enforcement is
coerced into a SUCCESS envelope carrying the dict as data. -/
theorem c5_normalize_result_cases_witness :
    normalize_result "f" (some { log_stream_name := "ls" }) false
        (FuncResult.rdict [("k", PyVal.vstr "v")]) =
      { data := some (PyVal.vdict [("k", PyVal.vstr "v")]) } :=
  (c5_normalize_result_cases "f" { log_stream_name := "ls" } false FuncResult.rnone
      (fun r h => by cases h)).2.2.2.1 [("k", PyVal.vstr "v")]

/-- C6: when the request type is DELETE, the normalized result is FAILED
and `hideResourceDeleteFailure` is enabled, `handler_wrapper` replaces
the result with a SUCCESS envelope carrying the same physical resource id
and the cleanup-may-be-incomplete warning reason. -/
theorem c6_hide_delete_failure (event : PyDict) (result : ResponseObject)
    (hrt : pyLookup event "RequestType" = some (PyVal.vstr "Delete"))
    (hst : result.responseStatus = "FAILED") :
    delete_guard event true result =
      { reason := some hideDeleteReason,
        physicalResourceId := result.physicalResourceId,
        responseStatus := "SUCCESS" } := by
  unfold delete_guard
  rw [if_pos ⟨hrt, hst, rfl⟩]

/-- Witness for C6 at a concrete failed DELETE. -/
theorem c6_hide_delete_failure_witness :
    delete_guard [("RequestType", PyVal.vstr "Delete")] true
        { responseStatus := "FAILED", physicalResourceId := some "pid-9" } =
      { reason := some hideDeleteReason, physicalResourceId := some "pid-9",
        responseStatus := "SUCCESS" } :=
  c6_hide_delete_failure [("RequestType", PyVal.vstr "Delete")]
    { responseStatus := "FAILED", physicalResourceId := some "pid-9" } rfl rfl

/-- C8 counterexample: in
`{"A.B": {"C": "one"}, "A": {"B": "two"}}` the dotted key "A.B" is
explicitly present (bound to the nested dict `{"C": "one"}`), yet after
`collapse_data` it is bound to the value "two" synthesized from
collapsing the nested mapping under "A" — the explicit key's value does
not win. -/
theorem c8_explicit_key_counterexample :
    collapse_data [("A.B", PyVal.vdict [("C", PyVal.vstr "one")]),
                   ("A", PyVal.vdict [("B", PyVal.vstr "two")])]
      = [("A.B.C", PyVal.vstr "one"), ("A.B", PyVal.vstr "two")] ∧
    pyLookup [("A.B", PyVal.vdict [("C", PyVal.vstr "one")]),
              ("A", PyVal.vdict [("B", PyVal.vstr "two")])] "A.B"
      = some (PyVal.vdict [("C", PyVal.vstr "one")]) ∧
    PyVal.vstr "two" ≠ PyVal.vdict [("C", PyVal.vstr "one")] :=
  ⟨rfl, rfl, by decide⟩

/-- C8 (amended): `collapse_data {"A": {"B": "x"}}` yields
`{"A.B": "x"}`, and a dotted key explicitly present in the input whose
value is not itself a nested mapping is never overwritten by a
synthesized key — its binding survives unchanged. -/
theorem c8_collapse_preserves_nondict_keys :
    collapse_data [("A", PyVal.vdict [("B", PyVal.vstr "x")])] =
      [("A.B", PyVal.vstr "x")] ∧
    ∀ (d : PyDict) (k : String) (v : PyVal), isDictVal v = false →
      pyLookup d k = some v → pyLookup (collapse_data d) k = some v := by
  refine ⟨rfl, ?_⟩
  intro d k v hv h
  exact collapseF_lookup _ d k v hv h

/-- Witness for C8: the explicit scalar entry "A.B" ↦ "y" survives
collapsing alongside a nested dict that synthesizes the same key. -/
theorem c8_collapse_preserves_nondict_keys_witness :
    pyLookup (collapse_data [("A", PyVal.vdict [("B", PyVal.vstr "x")]),
                             ("A.B", PyVal.vstr "y")]) "A.B"
      = some (PyVal.vstr "y") :=
  c8_collapse_preserves_nondict_keys.2
    [("A", PyVal.vdict [("B", PyVal.vstr "x")]), ("A.B", PyVal.vstr "y")]
    "A.B" (PyVal.vstr "y") rfl rfl

/-- C10 counterexample: a call to `cfnresponse` with flat (non-nested)
data leaves the caller's data dictionary contents completely unchanged —
so it is not the case that every call with non-`None` data modifies the
caller's dictionary. -/
theorem c10_flat_data_counterexample :
    (cfnresponse sampleEvent "SUCCESS" none (some (PyVal.vdict [("a", PyVal.vstr "b")]))
        (some "pid-1") none false).map (fun p => p.finalResponseData)
      = .ok (some [("a", PyVal.vstr "b")]) := rfl

/-- C10 (amended): `collapse_data` mutates the caller's `responseData`
dictionary in place and returns that same object, so after a successful
`cfnresponse` the caller's dictionary holds `collapse_data` of its
original contents and the envelope's `Data` entry aliases it; for nested
input the contents really change, as the `{"A": {"B": "x"}}` instance
shows. -/
theorem c10_collapse_aliasing (event : PyDict) (st : String) (rr : Option String)
    (dd : PyDict) (pid : Option String) (ctx : Option LambdaContext) (sq : Bool)
    (put : CfnPut)
    (h : cfnresponse event st rr (some (PyVal.vdict dd)) pid ctx sq = .ok put) :
    put.finalResponseData = some (collapse_data dd) ∧
    pyLookup put.responseBody "Data" = some (PyVal.vdict (collapse_data dd)) ∧
    collapse_data [("A", PyVal.vdict [("B", PyVal.vstr "x")])] =
      [("A.B", PyVal.vstr "x")] ∧
    collapse_data [("A", PyVal.vdict [("B", PyVal.vstr "x")])] ≠
      [("A", PyVal.vdict [("B", PyVal.vstr "x")])] := by
  obtain ⟨rb, fd, hb, hprb, hpfd, -, -⟩ := cfnresponse_ok_inv h
  obtain ⟨pidv, hpid, hfd, hrb⟩ := cfnbuild_ok_shape hb
  have hfd' : fd = some (collapse_data dd) := hfd
  refine ⟨by rw [hpfd, hfd'], ?_, rfl, by decide⟩
  rw [hprb, hrb, hfd']
  exact mkResponseBody_data _ _ _ _ _ _ _ _

/-- Witness for C10 at the nested concrete input: the caller's dictionary
contents change from `{"A": {"B": "x"}}` to `{"A.B": "x"}` and the
envelope's Data aliases them. -/
theorem c10_collapse_aliasing_witness :
    ∃ put : CfnPut,
      cfnresponse sampleEvent "SUCCESS" none
          (some (PyVal.vdict [("A", PyVal.vdict [("B", PyVal.vstr "x")])]))
          (some "pid-1") none false = .ok put ∧
      put.finalResponseData =
        some (collapse_data [("A", PyVal.vdict [("B", PyVal.vstr "x")])]) := by
  refine ⟨_, rfl, ?_⟩
  exact (c10_collapse_aliasing sampleEvent "SUCCESS" none
    [("A", PyVal.vdict [("B", PyVal.vstr "x")])] (some "pid-1") none false _ rfl).1

/-- C9: for every redaction config and every well-formed request event,
a successful `_redact` leaves every pre-existing heap address (hence the
input request's property dictionaries, and its whole contents) unchanged:
all writes go to the deep copy. -/
theorem c9_redact_no_mutation (research rmatch : String → String → Bool)
    (cfg : RedactionConfigM) (h : PropsHeap) (event : EventObj)
    (hwf : EvRefsLT event h.length) :
    ∀ h' ec, redactEvent research rmatch cfg h event = .ok (h', ec) →
      (∀ b, b < h.length → h'[b]? = h[b]?) ∧
      eventView h' event = eventView h event := by
  intro h' ec hok
  unfold redactEvent at hok
  split at hok
  · cases hok
  · cases hok
  · injection hok with hp
    have h1 : h' = (redactCore research rmatch cfg h event).1 := by rw [hp]
    have hpre := redactCore_frame research rmatch cfg hwf
    subst h1
    refine ⟨hpre, eventView_congr ?_⟩
    intro kf hm a ha
    refine heapGet_congr (hpre a ?_)
    have := hwf kf hm
    rw [ha] at this
    simpa [fieldRefLT] using this

/-- Witness for C9: redacting a concrete request with a matching
BLOCKLIST rule leaves the original heap object and the request contents
unchanged. -/
theorem c9_redact_no_mutation_witness :
    (∀ b, b < redactHeap0.length →
        (redactCore matchAnchored matchAnchored blockCfg redactHeap0 redactEvent0).1[b]? =
          redactHeap0[b]?) ∧
    eventView (redactCore matchAnchored matchAnchored blockCfg redactHeap0 redactEvent0).1
        redactEvent0 = eventView redactHeap0 redactEvent0 :=
  c9_redact_no_mutation matchAnchored matchAnchored blockCfg redactHeap0 redactEvent0
    (by decide)
    (redactCore matchAnchored matchAnchored blockCfg redactHeap0 redactEvent0).1
    (redactCore matchAnchored matchAnchored blockCfg redactHeap0 redactEvent0).2
    rfl

/-- C3 (amended): in BLOCKLIST mode with URL redaction disabled, when no
rule set's resource-type pattern matches the request's resource type,
`_redact` returns a sanitized copy whose contents equal the original
request exactly (an unmatched rule set is inert). -/
theorem c3_blocklist_identity (research rmatch : String → String → Bool)
    (cfg : RedactionConfigM) (h : PropsHeap) (event : EventObj)
    (hmode : cfg.redactMode = "block") (hurl : cfg.redactResponseURL = false)
    (hwf : EvRefsLT event h.length)
    (hnom : ∀ rule ∈ cfg.redactProperties, research rule.1 (getRTypeEv event) = false)
    (hvalid : is_valid_event (eventView h event) = some true) :
    ∃ h' ec, redactEvent research rmatch cfg h event = .ok (h', ec) ∧
      eventView h' ec = eventView h event := by
  obtain ⟨hext, hlt0, hge0, hv0⟩ := deepcopyEvent_spec hwf
  have hab : allowBlank cfg (deepcopyEvent h event) = deepcopyEvent h event := by
    unfold allowBlank
    rw [hmode]
    simp
  have haf : ∀ a1 a2 a3 a4 hh, allowFinal cfg a1 a2 a3 a4 hh = hh := by
    intro a1 a2 a3 a4 hh
    unfold allowFinal
    rw [hmode]
    simp
  have hcore : redactCore research rmatch cfg h event = deepcopyEvent h event := by
    simp only [redactCore]
    rw [hab]
    rw [applyRules_nomatch research rmatch cfg (getRTypeEv event) _ _ _ _ _ hnom]
    rw [haf]
    rw [hurl]
    simp
  refine ⟨(deepcopyEvent h event).1, (deepcopyEvent h event).2, ?_, hv0⟩
  unfold redactEvent
  rw [hvalid, hcore]

/-- Witness for C3 at a concrete request and unmatched BLOCKLIST rule. -/
theorem c3_blocklist_identity_witness :
    ∃ h' ec,
      redactEvent neverMatch neverMatch blockCfgUnmatched redactHeap0 redactEvent0 =
        .ok (h', ec) ∧
      eventView h' ec = eventView redactHeap0 redactEvent0 :=
  c3_blocklist_identity neverMatch neverMatch blockCfgUnmatched redactHeap0 redactEvent0
    rfl rfl (by decide) (by decide) (by decide)

/-- C3 counterexample: in ALLOWLIST mode a rule set whose resource-type
pattern matches nothing is inert, yet the default-deny final pass still
replaces every property with the redaction marker, so the sanitized copy
is NOT equal to the original request. -/
theorem c3_allowlist_identity_counterexample :
    (∀ rule ∈ allowCfg.redactProperties,
        neverMatch rule.1 (getRTypeEv redactEvent0) = false) ∧
    allowCfg.redactResponseURL = false ∧
    (redactEvent neverMatch neverMatch allowCfg redactHeap0 redactEvent0).map
        (fun r => eventView r.1 r.2)
      = .ok allowRedactedView ∧
    allowRedactedView ≠ eventView redactHeap0 redactEvent0 := by
  refine ⟨by decide, rfl, rfl, by decide⟩

end Accustom
